import Mathlib

/-!
The input plugin of audacious-xmp, `src/xmp.cpp`.

A shallow embedding of `XMPPlugin` (`is_our_file`, `read_tag`, `play`,
`open_file`), of `values_changed` and of the `widgets` table.

The plugin talks to two collaborators whose code is not in `xmp.cpp`:

* the engine wrapper `XMPWrap` (`xmpwrap.h`), taken as a parameter: a record of
  its two constructors, its getters, its setters and `play_frame` over an
  arbitrary handle type `H`;
* the host (`libaudcore`), taken as a parameter as well: `uri_to_filename`,
  `VFSFile::read_all` (which may change the virtual file it reads), the answers
  of `check_stop` / `check_seek`, and the steps the preferences thread takes
  while `play` runs.

`force_apply` is a plain static written by `values_changed` on the preferences
thread and read and cleared by the loop of `play`.  The two threads are
interleaved: the preferences thread may take steps during each of the host
calls `check_stop`, `check_seek` and `write_audio`, and between any two of the
accesses to `force_apply` and to the configuration in lines 135-139.  A widget
edit is two steps, the store and the callback, which other steps may separate.
Steps taken while the file is opened (lines 121-123) are scripted at the first
`check_stop`: line 125 sets the flag after them, so they have the same effect
there.

Every call the plugin makes on a collaborator is recorded as an `Event`, in
program order, so that "is called", "is never called" and "is called before"
are statements about the list of events a function returns.
-/

namespace XMP

/-! ## Data -/

/-- Contents of an `Index<char>` buffer. -/
abbrev Bytes := List UInt8

/-- `XMPWrap::Frame`: the buffer of one synthesis step and its count `n`. -/
structure Frame where
  n : Nat
  buf : Bytes
deriving DecidableEq, Repr

/-- The three configuration keys `SETTING_*` of `xmp.cpp` (lines 42-44). -/
inductive Setting where
  | SETTING_STEREO_SEPARATION
  | SETTING_PANNING_AMPLITUDE
  | SETTING_INTERPOLATOR
deriving DecidableEq, Repr

open Setting

/-- The configuration text of every key. -/
def Setting.key : Setting → String
  | SETTING_STEREO_SEPARATION => "stereo_separation"
  | SETTING_PANNING_AMPLITUDE => "panning_amplitude"
  | SETTING_INTERPOLATOR => "interpolator"

/-- The integers stored in the host configuration under the section `PACKAGE`. -/
structure Config where
  stereo_separation : Int
  panning_amplitude : Int
  interpolator : Int
deriving DecidableEq, Repr

/-- Host call `aud_get_int(PACKAGE, key)`. -/
def aud_get_int (cfg : Config) : Setting → Int
  | SETTING_STEREO_SEPARATION => cfg.stereo_separation
  | SETTING_PANNING_AMPLITUDE => cfg.panning_amplitude
  | SETTING_INTERPOLATOR => cfg.interpolator

/-- Host call `aud_set_int(PACKAGE, key, v)`, what a bound widget does on an edit. -/
def aud_set_int (cfg : Config) (k : Setting) (v : Int) : Config :=
  match k with
  | SETTING_STEREO_SEPARATION => { cfg with stereo_separation := v }
  | SETTING_PANNING_AMPLITUDE => { cfg with panning_amplitude := v }
  | SETTING_INTERPOLATOR => { cfg with interpolator := v }

/-- Sample formats of the host; the plugin only uses `FMT_S16_NE`. -/
inductive AudioFormat where
  | FMT_S16_NE
  | FMT_FLOAT
deriving DecidableEq, Repr

/-- One call of the plugin on the engine wrapper or on the host. -/
inductive Event where
  | open_from_path (path : String) (panning_amplitude : Int) (ok : Bool)
  | read_all
  | open_from_memory (buf : Bytes) (panning_amplitude : Int) (ok : Bool)
  | aud_get_int (key : Setting) (value : Int)
  | open_audio (fmt : AudioFormat) (rate : Int) (channels : Int)
  | check_stop (answer : Bool)
  | check_seek (answer : Int)
  | seek (ms : Int)
  | set_interpolator (v : Int)
  | set_stereo_separation (v : Int)
  | play_frame (n : Nat)
  | write_audio (buf : Bytes) (length : Nat)
deriving DecidableEq, Repr

/-- The engine wrapper `XMPWrap` over handles of type `H`.  A constructor that
throws `XMPWrap::InvalidFile` is `none`. -/
structure XMPWrap (H : Type) where
  from_path : String → Int → Option H
  from_memory : Bytes → Int → Option H
  format : H → String
  channels : H → Int
  rate : H → Int
  duration : H → Int
  title : H → String
  seek : H → Int → H
  set_interpolator : H → Int → H
  set_stereo_separation : H → Int → H
  play_frame : H → Frame × H

/-- An edit in the preferences window: the widget bound to `key` stores `value`. -/
structure UIAction where
  key : Setting
  value : Int
deriving DecidableEq, Repr

/-- One step of the preferences thread: a bound widget stores a value in the
configuration, or the callback `values_changed` of a widget runs. -/
inductive UIStep where
  | store (key : Setting) (value : Int)
  | values_changed
deriving DecidableEq, Repr

/-- The host, over virtual files of type `V`.  `read_all` gives the bytes it
read and the virtual file as the read left it.  Time counts the points at
which the preferences thread may run; `stop t` and `seek t` are the answers of
`check_stop` and `check_seek` when they are polled at time `t`, and `ui t` are
the steps the preferences thread takes at time `t`. -/
structure Host (V : Type) where
  uri_to_filename : String → String
  read_all : V → Bytes × V
  stop : Nat → Bool
  seek : Nat → Int
  ui : Nat → List UIStep

/-- The mutable state around the plugin: its static `force_apply` (line 40), the
host configuration, and the time (the number of points passed so far at which
the preferences thread may run). -/
structure World where
  force_apply : Bool
  cfg : Config
  clock : Nat
deriving DecidableEq, Repr

/-! ## Configuration surface (lines 216-240) -/

/-- `values_changed` (lines 216-219). -/
def values_changed (w : World) : World :=
  { w with force_apply := true }

/-- One entry of `XMPPlugin::widgets`: label, bound key, whether
`values_changed` is passed to `WidgetInt`, and the spin range when there is one. -/
structure PreferencesWidget where
  label : String
  key : Setting
  callback : Bool
  range : Option (Int × Int × Int)
deriving DecidableEq, Repr

/-- `XMPPlugin::widgets` (lines 221-240). -/
def widgets : List PreferencesWidget :=
  [ { label := "Stereo separation:", key := SETTING_STEREO_SEPARATION,
      callback := true, range := some (0, 100, 1) },
    { label := "Panning amplitude:", key := SETTING_PANNING_AMPLITUDE,
      callback := false, range := some (0, 100, 1) },
    { label := "Interpolation:", key := SETTING_INTERPOLATOR,
      callback := true, range := none } ]

/-- Whether the widget bound to `k` carries the callback `values_changed`. -/
def has_callback (k : Setting) : Bool :=
  widgets.any (fun x => decide (x.key = k) && x.callback)

/-- Effect of one step of the preferences thread. -/
def ui_step (w : World) : UIStep → World
  | UIStep.store k v => { w with cfg := aud_set_int w.cfg k v }
  | UIStep.values_changed => values_changed w

/-- The steps of one edit: the widget stores the value and then its callback
runs, when it has one. -/
def widget_steps (a : UIAction) : List UIStep :=
  UIStep.store a.key a.value :: (if has_callback a.key then [UIStep.values_changed] else [])

/-- An edit made with nothing in between its steps. -/
def widget_edit (w : World) (a : UIAction) : World :=
  (widget_steps a).foldl ui_step w

/-- A suspending host call (`check_stop`, `check_seek`, `write_audio`) made at
time `w.clock`: the preferences thread takes its steps of that moment and
time advances. -/
def suspend {V : Type} (host : Host V) (w : World) : World :=
  (host.ui w.clock).foldl ui_step { w with clock := w.clock + 1 }

/-- A point between two statements of `play` at which the preferences thread
may run: it takes its steps of that moment and time advances. -/
def preempt {V : Type} (host : Host V) (w : World) : World :=
  (host.ui w.clock).foldl ui_step { w with clock := w.clock + 1 }

/-! ## File source resolver (lines 162-191) -/

/-- `XMPPlugin::open_file`.  The C++ default of `panning_amplitude` is `-1`;
callers that omit it pass `-1` here.  The result is the handle, the calls
made, and the virtual file as the call left it (`file` is a `VFSFile &`). -/
def open_file {H V : Type} (E : XMPWrap H) (host : Host V)
    (uri : String) (file : V) (panning_amplitude : Int) : Option H × List Event × V :=
  let filename := host.uri_to_filename uri
  let first : Option H × List Event :=
    if filename.length > 0 then
      match E.from_path filename panning_amplitude with
      | some h => (some h, [Event.open_from_path filename panning_amplitude true])
      | none => (none, [Event.open_from_path filename panning_amplitude false])
    else (none, [])
  match first.1 with
  | some h => (some h, first.2, file)
  | none =>
    let read := host.read_all file
    let buf := read.1
    let xmp := E.from_memory buf panning_amplitude
    (xmp, first.2 ++ [Event.read_all, Event.open_from_memory buf panning_amplitude xmp.isSome],
      read.2)

/-! ## Host metadata record -/

/-- Fields of the host tuple (`Tuple::Field`); the plugin writes `Length` and
`Title` only. -/
inductive Field where
  | Title | Artist | Album | Comment | Genre | Year | Track | Length
deriving DecidableEq, Repr

/-- The host metadata record `Tuple`: the file name, the format quadruple
(format name, channels, sample rate, bitrate) and the integer and string
fields. -/
structure Tuple where
  filename : Option String
  format : Option (String × Int × Int × Int)
  ints : Field → Option Int
  strs : Field → Option String

/-- `Tuple::set_filename`. -/
def Tuple.set_filename (t : Tuple) (filename : String) : Tuple :=
  { t with filename := some filename }

/-- `Tuple::set_format`. -/
def Tuple.set_format (t : Tuple) (format : String) (channels rate bitrate : Int) : Tuple :=
  { t with format := some (format, channels, rate, bitrate) }

/-- `Tuple::set_int`. -/
def Tuple.set_int (t : Tuple) (f : Field) (v : Int) : Tuple :=
  { t with ints := fun g => if g = f then some v else t.ints g }

/-- `Tuple::set_str`. -/
def Tuple.set_str (t : Tuple) (f : Field) (v : String) : Tuple :=
  { t with strs := fun g => if g = f then some v else t.strs g }

/-! ## Probe and tag reading (lines 89-117) -/

/-- What a probe hands back: the return value, the world and the virtual file
afterwards, and the calls made. -/
structure ProbeOut (V : Type) where
  ret : Bool
  world : World
  file : V
  trace : List Event
deriving DecidableEq, Repr

/-- `XMPPlugin::is_our_file` (lines 89-96). -/
def is_our_file {H V : Type} (E : XMPWrap H) (host : Host V)
    (w : World) (filename : String) (file : V) : ProbeOut V :=
  let xmp := open_file E host filename file (-1)
  match xmp.1 with
  | none => { ret := false, world := w, file := xmp.2.2, trace := xmp.2.1 }
  | some _ => { ret := true, world := w, file := xmp.2.2, trace := xmp.2.1 }

/-- What `read_tag` hands back: the return value, the tuple, the world and the
virtual file afterwards, and the calls made. -/
structure TagOut (V : Type) where
  ret : Bool
  tuple : Tuple
  world : World
  file : V
  trace : List Event

/-- `XMPPlugin::read_tag` (lines 98-117). -/
def read_tag {H V : Type} (E : XMPWrap H) (host : Host V)
    (w : World) (filename : String) (file : V) (tuple : Tuple) : TagOut V :=
  let xmp := open_file E host filename file (-1)
  match xmp.1 with
  | some h =>
    let tuple := tuple.set_filename filename
    let tuple := tuple.set_format (E.format h) (E.channels h) (E.rate h) 0
    let tuple := tuple.set_int Field.Length (E.duration h)
    let tuple := if ¬ (E.title h).isEmpty then tuple.set_str Field.Title (E.title h) else tuple
    { ret := true, tuple := tuple, world := w, file := xmp.2.2, trace := xmp.2.1 }
  | none => { ret := false, tuple := tuple, world := w, file := xmp.2.2, trace := xmp.2.1 }

/-! ## Playback (lines 119-150) -/

/-- State between two statements of the loop body: the world, the handle and
the calls made so far in the iteration. -/
structure Stage (H : Type) where
  world : World
  xmp : H
  trace : List Event

/-- Lines 131-133: `check_seek` is polled and a value `>= 0` is passed to
`seek`. -/
def poll_seek {H V : Type} (E : XMPWrap H) (host : Host V) (w : World) (xmp : H) : Stage H :=
  let seek_value := host.seek w.clock
  let w := suspend host w
  if seek_value ≥ 0 then
    { world := w, xmp := E.seek xmp seek_value,
      trace := [Event.check_seek seek_value, Event.seek seek_value] }
  else
    { world := w, xmp := xmp, trace := [Event.check_seek seek_value] }

/-- Lines 135-140: when `force_apply` is set, the interpolator and the stereo
separation are read from the configuration and pushed into the handle, and
the flag is cleared.  The preferences thread may run after the test of the
flag, between the two reads, and before the clear. -/
def apply_settings {H V : Type} (E : XMPWrap H) (host : Host V) (w : World) (xmp : H) :
    Stage H :=
  if w.force_apply then
    let w := preempt host w
    let i := aud_get_int w.cfg SETTING_INTERPOLATOR
    let xmp := E.set_interpolator xmp i
    let w := preempt host w
    let s := aud_get_int w.cfg SETTING_STEREO_SEPARATION
    let xmp := E.set_stereo_separation xmp s
    let w := preempt host w
    { world := { w with force_apply := false }, xmp := xmp,
      trace := [Event.aud_get_int SETTING_INTERPOLATOR i, Event.set_interpolator i,
                Event.aud_get_int SETTING_STEREO_SEPARATION s, Event.set_stereo_separation s] }
  else
    { world := w, xmp := xmp, trace := [] }

/-- Outcome of one pass through the loop body: `brk` tells that the body left
the loop through `break`. -/
structure IterOut (H : Type) where
  brk : Bool
  world : World
  xmp : H
  trace : List Event

/-- The loop body (lines 131-146). -/
def play_iteration {H V : Type} (E : XMPWrap H) (host : Host V) (w : World) (xmp : H) :
    IterOut H :=
  let s1 := poll_seek E host w xmp
  let s2 := apply_settings E host s1.world s1.xmp
  let fr := E.play_frame s2.xmp
  let frame := fr.1
  let t := s1.trace ++ s2.trace ++ [Event.play_frame frame.n]
  if frame.n = 0 then
    { brk := true, world := s2.world, xmp := fr.2, trace := t }
  else
    { brk := false, world := suspend host s2.world, xmp := fr.2,
      trace := t ++ [Event.write_audio frame.buf frame.n] }

/-- Outcome of the loop: `finished` is false when the loop was still running
after the allowed number of iterations; the trace is then the calls made so
far. -/
structure LoopOut (H : Type) where
  finished : Bool
  world : World
  xmp : H
  trace : List Event

/-- The loop `while(!check_stop())` (lines 129-147), run for at most `fuel`
passes through its body. -/
def play_loop {H V : Type} (E : XMPWrap H) (host : Host V) : Nat → World → H → LoopOut H
  | 0, w, xmp =>
    if host.stop w.clock then
      { finished := true, world := suspend host w, xmp := xmp, trace := [Event.check_stop true] }
    else
      { finished := false, world := suspend host w, xmp := xmp,
        trace := [Event.check_stop false] }
  | fuel + 1, w, xmp =>
    if host.stop w.clock then
      { finished := true, world := suspend host w, xmp := xmp, trace := [Event.check_stop true] }
    else
      let it := play_iteration E host (suspend host w) xmp
      if it.brk then
        { finished := true, world := it.world, xmp := it.xmp,
          trace := Event.check_stop false :: it.trace }
      else
        let r := play_loop E host fuel it.world it.xmp
        { finished := r.finished, world := r.world, xmp := r.xmp,
          trace := Event.check_stop false :: (it.trace ++ r.trace) }

/-- Outcome of `play`: `ret` is `none` when the loop was still running after
the allowed number of iterations; `file` is the virtual file afterwards. -/
structure PlayOut (V : Type) where
  ret : Option Bool
  world : World
  file : V
  trace : List Event
deriving DecidableEq, Repr

/-- `XMPPlugin::play` (lines 119-150). -/
def play {H V : Type} (E : XMPWrap H) (host : Host V) (fuel : Nat)
    (w : World) (filename : String) (file : V) : PlayOut V :=
  let pa := aud_get_int w.cfg SETTING_PANNING_AMPLITUDE
  let xmp := open_file E host filename file pa
  let t := Event.aud_get_int SETTING_PANNING_AMPLITUDE pa :: xmp.2.1
  match xmp.1 with
  | none => { ret := some false, world := w, file := xmp.2.2, trace := t }
  | some h =>
    let w := { w with force_apply := true }
    let r := play_loop E host fuel w h
    { ret := if r.finished then some true else none,
      world := r.world,
      file := xmp.2.2,
      trace := t ++ Event.open_audio AudioFormat.FMT_S16_NE 44100 2 :: r.trace }

/-! ## Reading traces -/

/-- Total of the byte counts passed to `write_audio`. -/
def bytes_written : List Event → Nat
  | [] => 0
  | Event.write_audio _ n :: t => n + bytes_written t
  | _ :: t => bytes_written t

/-- The counts `n` of the frames returned by `play_frame`, in order. -/
def frames : List Event → List Nat
  | [] => []
  | Event.play_frame n :: t => n :: frames t
  | _ :: t => frames t

/-- Number of output channels of the sink opened by `play`. -/
def channels : Nat := 2

/-- The byte total as the specification words it: the sum of
`n * channels * 2` over the frames with `n > 0`. -/
def spec_bytes (tr : List Event) : Nat :=
  (((frames tr).filter (fun n => decide (0 < n))).map (fun n => n * channels * 2)).sum

/-- The event is a call of the host sink (`open_audio` or `write_audio`). -/
def Event.is_sink : Event → Bool
  | Event.open_audio _ _ _ => true
  | Event.write_audio _ _ => true
  | _ => false

/-- The event is `check_seek` or `seek`. -/
def Event.is_seek : Event → Bool
  | Event.check_seek _ => true
  | Event.seek _ => true
  | _ => false

/-- The event is a call of `write_audio`. -/
def Event.is_write : Event → Bool
  | Event.write_audio _ _ => true
  | _ => false

/-- The event is a call of `play_frame`. -/
def Event.is_frame : Event → Bool
  | Event.play_frame _ => true
  | _ => false

/-- The answers of `check_seek`, in order. -/
def polls : List Event → List Int
  | [] => []
  | Event.check_seek v :: t => v :: polls t
  | _ :: t => polls t

/-- The positions passed to `seek`, in order. -/
def seeks : List Event → List Int
  | [] => []
  | Event.seek v :: t => v :: seeks t
  | _ :: t => seeks t

/-- The calls made after the first `check_stop` that answered true, when there
is one. -/
def after_stop : List Event → Option (List Event)
  | [] => none
  | Event.check_stop true :: t => some t
  | _ :: t => after_stop t

/-- The step stores a panning amplitude. -/
def UIStep.is_panning_store : UIStep → Bool
  | UIStep.store SETTING_PANNING_AMPLITUDE _ => true
  | _ => false

/-- The steps that are not stores of the panning amplitude. -/
def live_edits (l : List UIStep) : List UIStep :=
  l.filter (fun s => !s.is_panning_store)

/-- Two worlds that agree on everything but the stored panning amplitude. -/
def same_live (a b : World) : Prop :=
  a.force_apply = b.force_apply ∧ a.clock = b.clock ∧
  a.cfg.stereo_separation = b.cfg.stereo_separation ∧
  a.cfg.interpolator = b.cfg.interpolator

/-- The event reads the panning amplitude from the configuration. -/
def Event.is_panning_read : Event → Bool
  | Event.aud_get_int SETTING_PANNING_AMPLITUDE _ => true
  | _ => false

/-! ## A small engine and host to run the definitions on -/

/-- Handle of the sample engine: frames left to play, and the parameters it
was given. -/
structure DemoHandle where
  title : String
  left : Nat
  pos : Int
  interpolator : Int
  separation : Int
  panning : Int
deriving DecidableEq, Repr

/-- Sample engine: it recognizes the path `/music/demo.mod` (title `Demo`) and
every buffer that starts with the byte `77` (no title); a song has three
frames of three bytes. -/
def demoEngine : XMPWrap DemoHandle where
  from_path p pa :=
    if p = "/music/demo.mod" then some ⟨"Demo", 3, 0, 0, 0, pa⟩ else none
  from_memory buf pa :=
    match buf with
    | 77 :: _ => some ⟨"", 3, 0, 0, 0, pa⟩
    | _ => none
  format _ := "MOD"
  channels _ := 2
  rate _ := 44100
  duration _ := 12345
  title h := h.title
  seek h ms := { h with pos := ms }
  set_interpolator h v := { h with interpolator := v }
  set_stereo_separation h v := { h with separation := v }
  play_frame h :=
    match h.left with
    | 0 => (⟨0, []⟩, h)
    | k + 1 => (⟨3, [1, 2, 3]⟩, { h with left := k })

/-- Sample host: URIs that start with a slash are local paths; a virtual file
is the bytes not read yet, and `read_all` reads them all; nobody stops, seeks
or edits. -/
def demoHost : Host Bytes where
  uri_to_filename uri := if uri.front = '/' then uri else ""
  read_all file := (file, [])
  stop _ := false
  seek _ := -1
  ui _ := []

/-- Sample host with a listener who seeks to 500 ms at time 1, edits the
interpolator at time 6 (during the second `check_stop`), edits the panning
amplitude at time 7, and stops at time 12. -/
def busyHost : Host Bytes where
  uri_to_filename uri := if uri.front = '/' then uri else ""
  read_all file := (file, [])
  stop t := decide (12 ≤ t)
  seek t := if t = 1 then 500 else -1
  ui t :=
    if t = 6 then widget_steps ⟨SETTING_INTERPOLATOR, 2⟩
    else if t = 7 then widget_steps ⟨SETTING_PANNING_AMPLITUDE, 80⟩
    else []

/-- The steps of the busy host with other edits of the panning amplitude: none
at time 7, one at time 2 and two at time 9. -/
def otherPanningEdits (t : Nat) : List UIStep :=
  if t = 6 then widget_steps ⟨SETTING_INTERPOLATOR, 2⟩
  else if t = 2 then widget_steps ⟨SETTING_PANNING_AMPLITUDE, 10⟩
  else if t = 9 then
    widget_steps ⟨SETTING_PANNING_AMPLITUDE, 0⟩ ++ widget_steps ⟨SETTING_PANNING_AMPLITUDE, 100⟩
  else []

/-- Sample world: flag down, defaults installed, time zero. -/
def demoWorld : World :=
  { force_apply := false, cfg := ⟨70, 50, 1⟩, clock := 0 }

/-- Sample tuple with nothing set. -/
def emptyTuple : Tuple :=
  { filename := none, format := none, ints := fun _ => none, strs := fun _ => none }

/-! # Theorems -/

/-! ## The resolver -/

/-- When the local path is non-empty and the engine accepts it, `open_file`
makes that one call and returns its handle. -/
theorem open_file_of_path {H V : Type} (E : XMPWrap H) (host : Host V)
    (uri : String) (file : V) (pa : Int) (h : H)
    (hlen : 0 < (host.uri_to_filename uri).length)
    (hp : E.from_path (host.uri_to_filename uri) pa = some h) :
    open_file E host uri file pa
      = (some h, [Event.open_from_path (host.uri_to_filename uri) pa true], file) := by
  simp [open_file, hlen, hp]

/-- When the local path is empty, `open_file` goes to the virtual file at once. -/
theorem open_file_of_empty {H V : Type} (E : XMPWrap H) (host : Host V)
    (uri : String) (file : V) (pa : Int)
    (hlen : (host.uri_to_filename uri).length = 0) :
    open_file E host uri file pa
      = (E.from_memory (host.read_all file).1 pa,
         [Event.read_all,
          Event.open_from_memory (host.read_all file).1 pa
            (E.from_memory (host.read_all file).1 pa).isSome],
         (host.read_all file).2) := by
  simp [open_file, hlen]

/-- When the engine rejects the local path, `open_file` goes on to the virtual
file. -/
theorem open_file_of_rejected {H V : Type} (E : XMPWrap H) (host : Host V)
    (uri : String) (file : V) (pa : Int)
    (hlen : 0 < (host.uri_to_filename uri).length)
    (hp : E.from_path (host.uri_to_filename uri) pa = none) :
    open_file E host uri file pa
      = (E.from_memory (host.read_all file).1 pa,
         [Event.open_from_path (host.uri_to_filename uri) pa false,
          Event.read_all,
          Event.open_from_memory (host.read_all file).1 pa
            (E.from_memory (host.read_all file).1 pa).isSome],
         (host.read_all file).2) := by
  simp [open_file, hlen, hp]

/-- No call of `open_file` is a call of the audio sink. -/
theorem open_file_no_sink {H V : Type} (E : XMPWrap H) (host : Host V)
    (uri : String) (file : V) (pa : Int) :
    ∀ e ∈ (open_file E host uri file pa).2.1, e.is_sink = false := by
  intro e he
  by_cases hlen : 0 < (host.uri_to_filename uri).length
  · cases hp : E.from_path (host.uri_to_filename uri) pa with
    | none =>
      rw [open_file_of_rejected E host uri file pa hlen hp] at he
      simp at he
      rcases he with rfl | rfl | rfl <;> rfl
    | some h =>
      rw [open_file_of_path E host uri file pa h hlen hp] at he
      simp at he
      subst he; rfl
  · rw [open_file_of_empty E host uri file pa (by omega)] at he
    simp at he
    rcases he with rfl | rfl <;> rfl

/-- C1: `open_file` tries the local path first and the virtual file second.
If the identifier converts to a non-empty local path that the engine opens,
that handle is returned and the only call made is that open (the virtual file
is not read and is left as it was).  Otherwise (empty local path, or
`InvalidFile` from the path open) the whole virtual file is read once and
opened from memory with the same panning amplitude, the result is the result
of that memory open, and it is "no handle" exactly when the memory open
raised `InvalidFile`. -/
theorem open_file_local_first_then_memory {H V : Type} (E : XMPWrap H) (host : Host V)
    (uri : String) (file : V) (pa : Int) :
    (∀ h, 0 < (host.uri_to_filename uri).length →
        E.from_path (host.uri_to_filename uri) pa = some h →
        open_file E host uri file pa
          = (some h, [Event.open_from_path (host.uri_to_filename uri) pa true], file)) ∧
    (((host.uri_to_filename uri).length = 0 ∨
        E.from_path (host.uri_to_filename uri) pa = none) →
        (open_file E host uri file pa).1 = E.from_memory (host.read_all file).1 pa ∧
        (open_file E host uri file pa).2.1
          = (if 0 < (host.uri_to_filename uri).length
              then [Event.open_from_path (host.uri_to_filename uri) pa false] else [])
            ++ [Event.read_all,
                Event.open_from_memory (host.read_all file).1 pa
                  (E.from_memory (host.read_all file).1 pa).isSome] ∧
        ((open_file E host uri file pa).1 = none
          ↔ E.from_memory (host.read_all file).1 pa = none)) := by
  refine ⟨fun h hlen hp => open_file_of_path E host uri file pa h hlen hp, ?_⟩
  intro hcase
  by_cases hlen : 0 < (host.uri_to_filename uri).length
  · have hp : E.from_path (host.uri_to_filename uri) pa = none := by
      rcases hcase with h0 | hp
      · omega
      · exact hp
    rw [open_file_of_rejected E host uri file pa hlen hp]
    simp [hlen]
  · have h0 : (host.uri_to_filename uri).length = 0 := by omega
    rw [open_file_of_empty E host uri file pa h0]
    simp [h0]

/-- Witness of C1 on the sample engine: a recognized local path is opened
without a read of the virtual file, and a remote identifier is opened from
the bytes of the virtual file. -/
theorem open_file_local_first_then_memory_witness :
    open_file demoEngine demoHost "/music/demo.mod" [7, 7] 5
        = (some ⟨"Demo", 3, 0, 0, 0, 5⟩, [Event.open_from_path "/music/demo.mod" 5 true],
           [7, 7]) ∧
    ((open_file demoEngine demoHost "http://host/a.xm" [77, 1] 5).1
        = demoEngine.from_memory [77, 1] 5 ∧
      (open_file demoEngine demoHost "http://host/a.xm" [77, 1] 5).2.1
        = [Event.read_all, Event.open_from_memory [77, 1] 5 true] ∧
      ((open_file demoEngine demoHost "http://host/a.xm" [77, 1] 5).1 = none
        ↔ demoEngine.from_memory [77, 1] 5 = none)) :=
  ⟨(open_file_local_first_then_memory demoEngine demoHost "/music/demo.mod" [7, 7] 5).1
      ⟨"Demo", 3, 0, 0, 0, 5⟩ (by decide) (by decide),
   (open_file_local_first_then_memory demoEngine demoHost "http://host/a.xm" [77, 1] 5).2
      (Or.inl (by decide))⟩

/-- C2, refuted as stated: `/x.txt` is a non-empty local path that the sample
engine does not recognize, and still `open_file` reads the virtual file,
opens its bytes from memory and returns a handle. -/
theorem open_file_unrecognized_local_still_reads_vfile :
    0 < (demoHost.uri_to_filename "/x.txt").length ∧
    demoEngine.from_path (demoHost.uri_to_filename "/x.txt") (-1) = none ∧
    (open_file demoEngine demoHost "/x.txt" [77, 1] (-1)).1.isSome = true ∧
    (open_file demoEngine demoHost "/x.txt" [77, 1] (-1)).2.1
      = [Event.open_from_path "/x.txt" (-1) false, Event.read_all,
         Event.open_from_memory [77, 1] (-1) true] := by
  decide

/-- C2, amended: for an identifier that converts to a non-empty local path
which the engine does not recognize, `open_file` falls back to the virtual
file: after the failed path open it reads the whole virtual file once and
opens those bytes from memory; it returns the result of that memory open, so
it returns "not opened" exactly when the memory open raises `InvalidFile`
too. -/
theorem open_file_unrecognized_local_falls_back {H V : Type} (E : XMPWrap H) (host : Host V)
    (uri : String) (file : V) (pa : Int)
    (hlen : 0 < (host.uri_to_filename uri).length)
    (hp : E.from_path (host.uri_to_filename uri) pa = none) :
    (open_file E host uri file pa).2.1
      = [Event.open_from_path (host.uri_to_filename uri) pa false,
         Event.read_all,
         Event.open_from_memory (host.read_all file).1 pa
           (E.from_memory (host.read_all file).1 pa).isSome] ∧
    (open_file E host uri file pa).1 = E.from_memory (host.read_all file).1 pa ∧
    ((open_file E host uri file pa).1 = none
      ↔ E.from_memory (host.read_all file).1 pa = none) := by
  rw [open_file_of_rejected E host uri file pa hlen hp]
  simp

/-- Witness of amended C2: on `/x.txt` with a virtual file the sample engine
rejects as well, the virtual file is read and the result is "not opened". -/
theorem open_file_unrecognized_local_falls_back_witness :
    (open_file demoEngine demoHost "/x.txt" [7, 1] (-1)).2.1
      = [Event.open_from_path "/x.txt" (-1) false, Event.read_all,
         Event.open_from_memory [7, 1] (-1) false] ∧
    (open_file demoEngine demoHost "/x.txt" [7, 1] (-1)).1
      = demoEngine.from_memory [7, 1] (-1) ∧
    ((open_file demoEngine demoHost "/x.txt" [7, 1] (-1)).1 = none
      ↔ demoEngine.from_memory [7, 1] (-1) = none) :=
  open_file_unrecognized_local_falls_back demoEngine demoHost "/x.txt" [7, 1] (-1)
    (by decide) (by decide)

/-! ## Probe and tag reading -/

/-- The handle `open_file` returns depends on the virtual file only through
the bytes `read_all` yields. -/
theorem open_file_handle_congr {H V : Type} (E : XMPWrap H) (host : Host V)
    (uri : String) (file file2 : V) (pa : Int)
    (hb : (host.read_all file2).1 = (host.read_all file).1) :
    (open_file E host uri file2 pa).1 = (open_file E host uri file pa).1 := by
  by_cases hlen : 0 < (host.uri_to_filename uri).length
  · cases hp : E.from_path (host.uri_to_filename uri) pa with
    | none =>
      rw [open_file_of_rejected E host uri file pa hlen hp,
        open_file_of_rejected E host uri file2 pa hlen hp, hb]
    | some h =>
      rw [open_file_of_path E host uri file pa h hlen hp,
        open_file_of_path E host uri file2 pa h hlen hp]
  · rw [open_file_of_empty E host uri file pa (by omega),
      open_file_of_empty E host uri file2 pa (by omega), hb]

/-- The return value of `is_our_file`. -/
theorem is_our_file_ret {H V : Type} (E : XMPWrap H) (host : Host V)
    (w : World) (filename : String) (file : V) :
    (is_our_file E host w filename file).ret
      = (open_file E host filename file (-1)).1.isSome := by
  cases hx : (open_file E host filename file (-1)).1 <;> simp [is_our_file, hx]

/-- The world after `is_our_file`. -/
theorem is_our_file_world {H V : Type} (E : XMPWrap H) (host : Host V)
    (w : World) (filename : String) (file : V) :
    (is_our_file E host w filename file).world = w := by
  cases hx : (open_file E host filename file (-1)).1 <;> simp [is_our_file, hx]

/-- The virtual file after `is_our_file`. -/
theorem is_our_file_file {H V : Type} (E : XMPWrap H) (host : Host V)
    (w : World) (filename : String) (file : V) :
    (is_our_file E host w filename file).file
      = (open_file E host filename file (-1)).2.2 := by
  cases hx : (open_file E host filename file (-1)).1 <;> simp [is_our_file, hx]

/-- The calls of `is_our_file`. -/
theorem is_our_file_trace {H V : Type} (E : XMPWrap H) (host : Host V)
    (w : World) (filename : String) (file : V) :
    (is_our_file E host w filename file).trace
      = (open_file E host filename file (-1)).2.1 := by
  cases hx : (open_file E host filename file (-1)).1 <;> simp [is_our_file, hx]

/-- C10, refuted as stated: on the sample host a virtual file is consumed by
`read_all`.  The first probe of a remote identifier on the bytes `77, 1`
answers true and leaves the virtual file empty; the second probe, made right
after on the same identifier and the same virtual file, answers false. -/
theorem is_our_file_second_probe_differs :
    (is_our_file demoEngine demoHost demoWorld "http://host/a.xm" [77, 1]).ret = true ∧
    (is_our_file demoEngine demoHost demoWorld "http://host/a.xm" [77, 1]).file = [] ∧
    (is_our_file demoEngine demoHost
      (is_our_file demoEngine demoHost demoWorld "http://host/a.xm" [77, 1]).world
      "http://host/a.xm"
      (is_our_file demoEngine demoHost demoWorld "http://host/a.xm" [77, 1]).file).ret
      = false := by
  decide

/-- C10, amended: `is_our_file` returns true exactly when the resolver
produces a handle, and it hands back the world it was given: the flag
`force_apply`, the configuration and the time are untouched.  The one thing a
probe may change is the virtual file: when the local path opens it is left as
it was, and otherwise it is left as `read_all` left it.  A second call made
right after the first gives the same outcome when the first opened the local
path; and on any state of the virtual file from which `read_all` yields the
same bytes the answer is the same, in every world. -/
theorem is_our_file_probe {H V : Type} (E : XMPWrap H) (host : Host V)
    (w : World) (filename : String) (file : V) :
    ((is_our_file E host w filename file).ret = true
      ↔ (open_file E host filename file (-1)).1.isSome = true) ∧
    (is_our_file E host w filename file).world = w ∧
    (∀ h, 0 < (host.uri_to_filename filename).length →
      E.from_path (host.uri_to_filename filename) (-1) = some h →
      (is_our_file E host w filename file).file = file ∧
      is_our_file E host (is_our_file E host w filename file).world filename
          (is_our_file E host w filename file).file
        = is_our_file E host w filename file) ∧
    (((host.uri_to_filename filename).length = 0 ∨
        E.from_path (host.uri_to_filename filename) (-1) = none) →
      (is_our_file E host w filename file).file = (host.read_all file).2) ∧
    (∀ (w2 : World) (file2 : V), (host.read_all file2).1 = (host.read_all file).1 →
      (is_our_file E host w2 filename file2).ret
        = (is_our_file E host w filename file).ret) := by
  refine ⟨by rw [is_our_file_ret], is_our_file_world E host w filename file, ?_, ?_, ?_⟩
  · intro h hlen hp
    have hf : (is_our_file E host w filename file).file = file := by
      rw [is_our_file_file, open_file_of_path E host filename file (-1) h hlen hp]
    refine ⟨hf, ?_⟩
    rw [hf, is_our_file_world]
  · intro hcase
    rw [is_our_file_file]
    by_cases hlen : 0 < (host.uri_to_filename filename).length
    · have hp : E.from_path (host.uri_to_filename filename) (-1) = none := by
        rcases hcase with h0 | hp
        · omega
        · exact hp
      rw [open_file_of_rejected E host filename file (-1) hlen hp]
    · rw [open_file_of_empty E host filename file (-1) (by omega)]
  · intro w2 file2 hb
    rw [is_our_file_ret, is_our_file_ret, open_file_handle_congr E host filename file file2 (-1) hb]

/-- Witness of amended C10: the probe of the sample module at its local path
leaves the virtual file as it was and can be repeated; the probe of a remote
identifier leaves the virtual file as `read_all` left it; and a virtual file
that yields the same bytes gets the same answer. -/
theorem is_our_file_probe_witness :
    ((is_our_file demoEngine demoHost demoWorld "/music/demo.mod" [7, 7]).file = [7, 7] ∧
      is_our_file demoEngine demoHost
          (is_our_file demoEngine demoHost demoWorld "/music/demo.mod" [7, 7]).world
          "/music/demo.mod"
          (is_our_file demoEngine demoHost demoWorld "/music/demo.mod" [7, 7]).file
        = is_our_file demoEngine demoHost demoWorld "/music/demo.mod" [7, 7]) ∧
    (is_our_file demoEngine demoHost demoWorld "http://host/a.xm" [77, 1]).file
      = (demoHost.read_all [77, 1]).2 ∧
    (is_our_file demoEngine demoHost { demoWorld with force_apply := true }
        "http://host/a.xm" [77, 1]).ret
      = (is_our_file demoEngine demoHost demoWorld "http://host/a.xm" [77, 1]).ret :=
  ⟨(is_our_file_probe demoEngine demoHost demoWorld "/music/demo.mod" [7, 7]).2.2.1
      ⟨"Demo", 3, 0, 0, 0, -1⟩ (by decide) (by decide),
   (is_our_file_probe demoEngine demoHost demoWorld "http://host/a.xm" [77, 1]).2.2.2.1
      (Or.inl (by decide)),
   (is_our_file_probe demoEngine demoHost demoWorld "http://host/a.xm" [77, 1]).2.2.2.2
      { demoWorld with force_apply := true } [77, 1] (by decide)⟩

/-- C3: `read_tag` returns true exactly when the resolver produces a handle.
With a handle, the tuple gets filename = the identifier, format = (format
name, channels, rate, 0) and Length = the duration; Title becomes the engine
title when that title is non-empty and keeps its old value when it is empty;
every other field is as it was.  Without a handle, `read_tag` returns false
and the tuple is the tuple passed in. -/
theorem read_tag_populates {H V : Type} (E : XMPWrap H) (host : Host V)
    (w : World) (filename : String) (file : V) (tuple : Tuple) :
    ((read_tag E host w filename file tuple).ret = true
      ↔ (open_file E host filename file (-1)).1.isSome = true) ∧
    (∀ h, (open_file E host filename file (-1)).1 = some h →
      (read_tag E host w filename file tuple).ret = true ∧
      (read_tag E host w filename file tuple).tuple.filename = some filename ∧
      (read_tag E host w filename file tuple).tuple.format
        = some (E.format h, E.channels h, E.rate h, 0) ∧
      (read_tag E host w filename file tuple).tuple.ints Field.Length
        = some (E.duration h) ∧
      (E.title h ≠ "" →
        (read_tag E host w filename file tuple).tuple.strs Field.Title
          = some (E.title h)) ∧
      (E.title h = "" →
        (read_tag E host w filename file tuple).tuple.strs Field.Title
          = tuple.strs Field.Title) ∧
      (∀ f, f ≠ Field.Length →
        (read_tag E host w filename file tuple).tuple.ints f = tuple.ints f) ∧
      (∀ f, f ≠ Field.Title →
        (read_tag E host w filename file tuple).tuple.strs f = tuple.strs f)) ∧
    ((open_file E host filename file (-1)).1 = none →
      (read_tag E host w filename file tuple).ret = false ∧
      (read_tag E host w filename file tuple).tuple = tuple) := by
  refine ⟨?_, ?_, ?_⟩
  · cases hx : (open_file E host filename file (-1)).1 <;> simp [read_tag, hx]
  · intro h hh
    by_cases ht : E.title h = ""
    · have he : (E.title h).isEmpty = true := (String.isEmpty_iff _).2 ht
      simp only [read_tag, hh, he, Tuple.set_filename, Tuple.set_format, Tuple.set_int]
      simp [ht]
      intro f hf
      simp [hf]
    · have hne : (E.title h).isEmpty = false := by
        cases hb : (E.title h).isEmpty with
        | false => rfl
        | true => exact absurd ((String.isEmpty_iff _).1 hb) ht
      simp [read_tag, hh, ht, hne, Tuple.set_filename, Tuple.set_format, Tuple.set_int,
        Tuple.set_str]
      exact ⟨fun f h1 h2 => absurd h2 h1, fun f h1 h2 => absurd h2 h1⟩
  · intro hn
    simp [read_tag, hn]

/-- Witness of C3, scenario S1: the sample module at a local path has duration
12345 ms and title `Demo`; `read_tag` returns true and fills the tuple. -/
theorem read_tag_populates_witness :
    (read_tag demoEngine demoHost demoWorld "/music/demo.mod" [] emptyTuple).ret = true ∧
    (read_tag demoEngine demoHost demoWorld "/music/demo.mod" [] emptyTuple).tuple.filename
      = some "/music/demo.mod" ∧
    (read_tag demoEngine demoHost demoWorld "/music/demo.mod" [] emptyTuple).tuple.format
      = some ("MOD", 2, 44100, 0) ∧
    (read_tag demoEngine demoHost demoWorld "/music/demo.mod" [] emptyTuple).tuple.ints
      Field.Length = some 12345 ∧
    (read_tag demoEngine demoHost demoWorld "/music/demo.mod" [] emptyTuple).tuple.strs
      Field.Title = some "Demo" :=
  have h := (read_tag_populates demoEngine demoHost demoWorld "/music/demo.mod" []
      emptyTuple).2.1 ⟨"Demo", 3, 0, 0, 0, -1⟩ (by decide)
  ⟨h.1, h.2.1, h.2.2.1, h.2.2.2.1, h.2.2.2.2.1 (by decide)⟩

/-! ## Points at which the preferences thread runs -/

/-- Steps of the preferences thread do not move the time. -/
theorem foldl_ui_step_clock (l : List UIStep) (w : World) :
    (l.foldl ui_step w).clock = w.clock := by
  induction l generalizing w with
  | nil => rfl
  | cons a l ih =>
    simp only [List.foldl_cons]
    rw [ih]
    cases a <;> rfl

/-- A suspension point advances the time by one. -/
theorem suspend_clock {V : Type} (host : Host V) (w : World) :
    (suspend host w).clock = w.clock + 1 := by
  unfold suspend
  rw [foldl_ui_step_clock]

/-- The preferences thread does the same at a point between two statements as
during a host call. -/
theorem preempt_eq_suspend {V : Type} (host : Host V) (w : World) :
    preempt host w = suspend host w := rfl

/-- An edit whose two steps run together: the value is stored, and the flag is
raised when the widget has the callback. -/
theorem widget_edit_eq (w : World) (a : UIAction) :
    widget_edit w a
      = if has_callback a.key
        then values_changed { w with cfg := aud_set_int w.cfg a.key a.value }
        else { w with cfg := aud_set_int w.cfg a.key a.value } := by
  unfold widget_edit widget_steps
  cases h : has_callback a.key <;> simp [ui_step]

/-! ## Reading traces -/

/-- The byte total of two traces in a row. -/
theorem bytes_written_append (a b : List Event) :
    bytes_written (a ++ b) = bytes_written a + bytes_written b := by
  induction a with
  | nil => simp [bytes_written]
  | cons e a ih => cases e <;> simp [bytes_written, ih, Nat.add_assoc]

/-- The frames of two traces in a row. -/
theorem frames_append (a b : List Event) : frames (a ++ b) = frames a ++ frames b := by
  induction a with
  | nil => simp [frames]
  | cons e a ih => cases e <;> simp [frames, ih]

/-- The polls of two traces in a row. -/
theorem polls_append (a b : List Event) : polls (a ++ b) = polls a ++ polls b := by
  induction a with
  | nil => simp [polls]
  | cons e a ih => cases e <;> simp [polls, ih]

/-- The seeks of two traces in a row. -/
theorem seeks_append (a b : List Event) : seeks (a ++ b) = seeks a ++ seeks b := by
  induction a with
  | nil => simp [seeks]
  | cons e a ih => cases e <;> simp [seeks, ih]

/-- A trace without a stop in front does not change what follows the stop. -/
theorem after_stop_append (a b : List Event) (h : after_stop a = none) :
    after_stop (a ++ b) = after_stop b := by
  induction a with
  | nil => rfl
  | cons e a ih =>
    cases e with
    | check_stop r =>
      cases r with
      | true => simp [after_stop] at h
      | false => simpa [after_stop] using ih (by simpa [after_stop] using h)
    | _ => simpa [after_stop] using ih (by simpa [after_stop] using h)

/-! ## The loop body -/

/-- The calls of lines 131-133. -/
theorem poll_seek_trace {H V : Type} (E : XMPWrap H) (host : Host V) (w : World) (xmp : H) :
    (poll_seek E host w xmp).trace
      = Event.check_seek (host.seek w.clock)
          :: (if 0 ≤ host.seek w.clock then [Event.seek (host.seek w.clock)] else []) := by
  unfold poll_seek
  by_cases h : 0 ≤ host.seek w.clock <;> simp [h]

/-- The world after lines 131-133. -/
theorem poll_seek_world {H V : Type} (E : XMPWrap H) (host : Host V) (w : World) (xmp : H) :
    (poll_seek E host w xmp).world = suspend host w := by
  unfold poll_seek
  by_cases h : 0 ≤ host.seek w.clock <;> simp [h]

/-- The handle after lines 131-133. -/
theorem poll_seek_xmp {H V : Type} (E : XMPWrap H) (host : Host V) (w : World) (xmp : H) :
    (poll_seek E host w xmp).xmp
      = if 0 ≤ host.seek w.clock then E.seek xmp (host.seek w.clock) else xmp := by
  unfold poll_seek
  by_cases h : 0 ≤ host.seek w.clock <;> simp [h]

/-- The calls of lines 135-140: each setter gets the value its setting has when
it is read. -/
theorem apply_settings_trace {H V : Type} (E : XMPWrap H) (host : Host V)
    (w : World) (xmp : H) :
    (apply_settings E host w xmp).trace
      = if w.force_apply then
          [Event.aud_get_int SETTING_INTERPOLATOR (suspend host w).cfg.interpolator,
           Event.set_interpolator (suspend host w).cfg.interpolator,
           Event.aud_get_int SETTING_STEREO_SEPARATION
             (suspend host (suspend host w)).cfg.stereo_separation,
           Event.set_stereo_separation
             (suspend host (suspend host w)).cfg.stereo_separation]
        else [] := by
  unfold apply_settings
  cases h : w.force_apply <;> simp [aud_get_int, preempt_eq_suspend]

/-- The world after lines 135-140. -/
theorem apply_settings_world {H V : Type} (E : XMPWrap H) (host : Host V)
    (w : World) (xmp : H) :
    (apply_settings E host w xmp).world
      = if w.force_apply then
          { suspend host (suspend host (suspend host w)) with force_apply := false }
        else w := by
  unfold apply_settings
  cases h : w.force_apply <;> simp [preempt_eq_suspend]

/-- The handle after lines 135-140. -/
theorem apply_settings_xmp {H V : Type} (E : XMPWrap H) (host : Host V)
    (w : World) (xmp : H) :
    (apply_settings E host w xmp).xmp
      = if w.force_apply then
          E.set_stereo_separation
            (E.set_interpolator xmp (suspend host w).cfg.interpolator)
            (suspend host (suspend host w)).cfg.stereo_separation
        else xmp := by
  unfold apply_settings
  cases h : w.force_apply <;> simp [aud_get_int, preempt_eq_suspend]

/-- Lines 135-140 do not turn the time back. -/
theorem apply_settings_clock {H V : Type} (E : XMPWrap H) (host : Host V)
    (w : World) (xmp : H) :
    w.clock ≤ (apply_settings E host w xmp).world.clock := by
  rw [apply_settings_world]
  cases h : w.force_apply
  · simp
  · simp only [if_true, suspend_clock]
    omega

/-- The calls of one pass through the loop body, in order. -/
theorem play_iteration_trace {H V : Type} (E : XMPWrap H) (host : Host V) (w : World) (xmp : H) :
    (play_iteration E host w xmp).trace
      = (poll_seek E host w xmp).trace
        ++ (apply_settings E host (suspend host w) (poll_seek E host w xmp).xmp).trace
        ++ Event.play_frame
            (E.play_frame (apply_settings E host (suspend host w) (poll_seek E host w xmp).xmp).xmp).1.n
        :: (if (E.play_frame
                (apply_settings E host (suspend host w) (poll_seek E host w xmp).xmp).xmp).1.n = 0
            then []
            else [Event.write_audio
              (E.play_frame
                (apply_settings E host (suspend host w) (poll_seek E host w xmp).xmp).xmp).1.buf
              (E.play_frame
                (apply_settings E host (suspend host w) (poll_seek E host w xmp).xmp).xmp).1.n]) := by
  unfold play_iteration
  simp only [poll_seek_world]
  split <;> simp

/-- The body breaks out of the loop exactly on a frame with a zero count. -/
theorem play_iteration_brk {H V : Type} (E : XMPWrap H) (host : Host V) (w : World) (xmp : H) :
    (play_iteration E host w xmp).brk
      = decide ((E.play_frame
          (apply_settings E host (suspend host w) (poll_seek E host w xmp).xmp).xmp).1.n = 0) := by
  unfold play_iteration
  simp only [poll_seek_world]
  split <;> simp [*]

/-- The world after one pass through the loop body. -/
theorem play_iteration_world {H V : Type} (E : XMPWrap H) (host : Host V) (w : World) (xmp : H) :
    (play_iteration E host w xmp).world
      = if (play_iteration E host w xmp).brk
        then (apply_settings E host (suspend host w) (poll_seek E host w xmp).xmp).world
        else suspend host
          (apply_settings E host (suspend host w) (poll_seek E host w xmp).xmp).world := by
  rw [play_iteration_brk]
  unfold play_iteration
  simp only [poll_seek_world]
  split <;> simp [*]

/-! ## Per-iteration readings -/

/-- One pass through the loop body synthesizes one frame. -/
theorem play_iteration_frames {H V : Type} (E : XMPWrap H) (host : Host V) (w : World) (xmp : H) :
    frames (play_iteration E host w xmp).trace
      = [(E.play_frame
          (apply_settings E host (suspend host w) (poll_seek E host w xmp).xmp).xmp).1.n] := by
  rw [play_iteration_trace, poll_seek_trace, apply_settings_trace]
  simp only [frames_append]
  split <;> split <;> split <;> simp [frames]

/-- One pass through the loop body writes the count of its frame. -/
theorem play_iteration_bytes {H V : Type} (E : XMPWrap H) (host : Host V) (w : World) (xmp : H) :
    bytes_written (play_iteration E host w xmp).trace
      = (E.play_frame
          (apply_settings E host (suspend host w) (poll_seek E host w xmp).xmp).xmp).1.n := by
  rw [play_iteration_trace, poll_seek_trace, apply_settings_trace]
  simp only [bytes_written_append]
  split <;> split <;> split <;> simp [bytes_written, *]

/-- One pass through the loop body polls for a seek once. -/
theorem play_iteration_polls {H V : Type} (E : XMPWrap H) (host : Host V) (w : World) (xmp : H) :
    polls (play_iteration E host w xmp).trace = [host.seek w.clock] := by
  rw [play_iteration_trace, poll_seek_trace, apply_settings_trace]
  simp only [polls_append]
  split <;> split <;> split <;> simp [polls]

/-- One pass through the loop body seeks when the poll answered a position. -/
theorem play_iteration_seeks {H V : Type} (E : XMPWrap H) (host : Host V) (w : World) (xmp : H) :
    seeks (play_iteration E host w xmp).trace
      = if 0 ≤ host.seek w.clock then [host.seek w.clock] else [] := by
  rw [play_iteration_trace, poll_seek_trace, apply_settings_trace]
  simp only [seeks_append]
  split <;> split <;> split <;> simp [seeks]

/-- The loop body does not call the stop check. -/
theorem play_iteration_after_stop {H V : Type} (E : XMPWrap H) (host : Host V)
    (w : World) (xmp : H) :
    after_stop (play_iteration E host w xmp).trace = none := by
  rw [play_iteration_trace, poll_seek_trace, apply_settings_trace]
  split <;> split <;> split <;> simp [after_stop]

/-! ## The loop -/

/-- A stop answered at the head of the loop ends it at once, whatever the
number of iterations allowed. -/
theorem play_loop_of_stop {H V : Type} (E : XMPWrap H) (host : Host V)
    (fuel : Nat) (w : World) (xmp : H) (hs : host.stop w.clock = true) :
    play_loop E host fuel w xmp
      = { finished := true, world := suspend host w, xmp := xmp,
          trace := [Event.check_stop true] } := by
  cases fuel <;> simp [play_loop, hs]

/-- One unfolding of the loop when the head check answers false. -/
theorem play_loop_succ {H V : Type} (E : XMPWrap H) (host : Host V)
    (fuel : Nat) (w : World) (xmp : H) (hs : host.stop w.clock = false) :
    play_loop E host (fuel + 1) w xmp
      = if (play_iteration E host (suspend host w) xmp).brk then
          { finished := true,
            world := (play_iteration E host (suspend host w) xmp).world,
            xmp := (play_iteration E host (suspend host w) xmp).xmp,
            trace := Event.check_stop false
              :: (play_iteration E host (suspend host w) xmp).trace }
        else
          { finished := (play_loop E host fuel
                (play_iteration E host (suspend host w) xmp).world
                (play_iteration E host (suspend host w) xmp).xmp).finished,
            world := (play_loop E host fuel
                (play_iteration E host (suspend host w) xmp).world
                (play_iteration E host (suspend host w) xmp).xmp).world,
            xmp := (play_loop E host fuel
                (play_iteration E host (suspend host w) xmp).world
                (play_iteration E host (suspend host w) xmp).xmp).xmp,
            trace := Event.check_stop false
              :: ((play_iteration E host (suspend host w) xmp).trace
                  ++ (play_loop E host fuel
                      (play_iteration E host (suspend host w) xmp).world
                      (play_iteration E host (suspend host w) xmp).xmp).trace) } := by
  simp [play_loop, hs]

/-- More iterations allowed do not change a run that has finished. -/
theorem play_loop_mono {H V : Type} (E : XMPWrap H) (host : Host V)
    (fuel k : Nat) (w : World) (xmp : H)
    (hf : (play_loop E host fuel w xmp).finished = true) :
    play_loop E host (fuel + k) w xmp = play_loop E host fuel w xmp := by
  induction fuel generalizing w xmp with
  | zero =>
    cases hs : host.stop w.clock with
    | true => rw [play_loop_of_stop E host _ w xmp hs, play_loop_of_stop E host _ w xmp hs]
    | false => simp [play_loop, hs] at hf
  | succ n ih =>
    cases hs : host.stop w.clock with
    | true => rw [play_loop_of_stop E host _ w xmp hs, play_loop_of_stop E host _ w xmp hs]
    | false =>
      have e : n + 1 + k = (n + k) + 1 := by omega
      rw [e, play_loop_succ E host _ w xmp hs, play_loop_succ E host _ w xmp hs]
      rw [play_loop_succ E host _ w xmp hs] at hf
      cases hb : (play_iteration E host (suspend host w) xmp).brk with
      | true => simp
      | false =>
        simp only [hb] at hf
        simp only [Bool.false_eq_true, if_false] at hf ⊢
        rw [ih _ _ hf]

/-- The loop always makes a call. -/
theorem play_loop_trace_ne_nil {H V : Type} (E : XMPWrap H) (host : Host V)
    (fuel : Nat) (w : World) (xmp : H) :
    (play_loop E host fuel w xmp).trace ≠ [] := by
  cases hs : host.stop w.clock with
  | true => rw [play_loop_of_stop E host _ w xmp hs]; simp
  | false =>
    cases fuel with
    | zero => simp [play_loop, hs]
    | succ n =>
      rw [play_loop_succ E host _ w xmp hs]
      split <;> simp

/-- Every byte count passed to `write_audio` is the count `n` of a frame:
the total written is the total of the frame counts. -/
theorem play_loop_bytes {H V : Type} (E : XMPWrap H) (host : Host V)
    (fuel : Nat) (w : World) (xmp : H) :
    bytes_written (play_loop E host fuel w xmp).trace
      = (frames (play_loop E host fuel w xmp).trace).sum := by
  induction fuel generalizing w xmp with
  | zero =>
    cases hs : host.stop w.clock <;> simp [play_loop, hs, bytes_written, frames]
  | succ n ih =>
    cases hs : host.stop w.clock with
    | true => rw [play_loop_of_stop E host _ w xmp hs]; simp [bytes_written, frames]
    | false =>
      rw [play_loop_succ E host _ w xmp hs]
      split
      · simp [bytes_written, frames, play_iteration_bytes, play_iteration_frames]
      · simp [bytes_written, frames, bytes_written_append, frames_append,
          play_iteration_bytes, play_iteration_frames, ih]

/-- A run whose last call is a `play_frame` that returned `n = 0` has finished. -/
theorem play_loop_finished_of_last {H V : Type} (E : XMPWrap H) (host : Host V)
    (fuel : Nat) (w : World) (xmp : H)
    (hl : (play_loop E host fuel w xmp).trace.getLast? = some (Event.play_frame 0)) :
    (play_loop E host fuel w xmp).finished = true := by
  induction fuel generalizing w xmp with
  | zero =>
    cases hs : host.stop w.clock <;> simp [play_loop, hs] at hl
  | succ n ih =>
    cases hs : host.stop w.clock with
    | true => rw [play_loop_of_stop E host _ w xmp hs]
    | false =>
      rw [play_loop_succ E host _ w xmp hs] at hl ⊢
      cases hb : (play_iteration E host (suspend host w) xmp).brk with
      | true => simp
      | false =>
        simp only [hb, Bool.false_eq_true, if_false] at hl ⊢
        apply ih
        have hne := play_loop_trace_ne_nil E host n
          (play_iteration E host (suspend host w) xmp).world
          (play_iteration E host (suspend host w) xmp).xmp
        rw [← List.cons_append, List.getLast?_append_of_ne_nil _ hne] at hl
        exact hl

/-- Nothing is called after a `check_stop` that answered true, and the run
has then finished. -/
theorem play_loop_after_stop {H V : Type} (E : XMPWrap H) (host : Host V)
    (fuel : Nat) (w : World) (xmp : H) (post : List Event)
    (hp : after_stop (play_loop E host fuel w xmp).trace = some post) :
    post = [] ∧ (play_loop E host fuel w xmp).finished = true := by
  induction fuel generalizing w xmp with
  | zero =>
    cases hs : host.stop w.clock with
    | true =>
      rw [play_loop_of_stop E host _ w xmp hs] at hp ⊢
      simp [after_stop] at hp
      exact ⟨hp, rfl⟩
    | false => simp [play_loop, hs, after_stop] at hp
  | succ n ih =>
    cases hs : host.stop w.clock with
    | true =>
      rw [play_loop_of_stop E host _ w xmp hs] at hp ⊢
      simp [after_stop] at hp
      exact ⟨hp, rfl⟩
    | false =>
      rw [play_loop_succ E host _ w xmp hs] at hp ⊢
      cases hb : (play_iteration E host (suspend host w) xmp).brk with
      | true =>
        simp [hb, after_stop, play_iteration_after_stop] at hp
      | false =>
        simp only [hb, Bool.false_eq_true, if_false] at hp ⊢
        simp only [after_stop] at hp
        rw [after_stop_append _ _ (play_iteration_after_stop E host _ _)] at hp
        exact ih _ _ hp

/-! ## `play` -/

/-- The calls of `open_file` have one of three shapes. -/
theorem open_file_trace_cases {H V : Type} (E : XMPWrap H) (host : Host V)
    (uri : String) (file : V) (pa : Int) :
    (∃ p, (open_file E host uri file pa).2.1 = [Event.open_from_path p pa true]) ∨
    (∃ b ok, (open_file E host uri file pa).2.1
        = [Event.read_all, Event.open_from_memory b pa ok]) ∨
    (∃ p b ok, (open_file E host uri file pa).2.1
        = [Event.open_from_path p pa false, Event.read_all,
           Event.open_from_memory b pa ok]) := by
  by_cases hlen : 0 < (host.uri_to_filename uri).length
  · cases hp : E.from_path (host.uri_to_filename uri) pa with
    | none =>
      rw [open_file_of_rejected E host uri file pa hlen hp]
      exact Or.inr (Or.inr ⟨_, _, _, rfl⟩)
    | some h =>
      rw [open_file_of_path E host uri file pa h hlen hp]
      exact Or.inl ⟨_, rfl⟩
  · rw [open_file_of_empty E host uri file pa (by omega)]
    exact Or.inr (Or.inl ⟨_, _, rfl⟩)

/-- `play` when the resolver gives no handle. -/
theorem play_of_none {H V : Type} (E : XMPWrap H) (host : Host V) (fuel : Nat)
    (w : World) (filename : String) (file : V)
    (hopen : (open_file E host filename file
      (aud_get_int w.cfg SETTING_PANNING_AMPLITUDE)).1 = none) :
    play E host fuel w filename file
      = { ret := some false, world := w,
          file := (open_file E host filename file
            (aud_get_int w.cfg SETTING_PANNING_AMPLITUDE)).2.2,
          trace := Event.aud_get_int SETTING_PANNING_AMPLITUDE
              (aud_get_int w.cfg SETTING_PANNING_AMPLITUDE)
            :: (open_file E host filename file
                (aud_get_int w.cfg SETTING_PANNING_AMPLITUDE)).2.1 } := by
  simp [play, hopen]

/-- `play` when the resolver gives a handle. -/
theorem play_of_some {H V : Type} (E : XMPWrap H) (host : Host V) (fuel : Nat)
    (w : World) (filename : String) (file : V) (h : H)
    (hopen : (open_file E host filename file
      (aud_get_int w.cfg SETTING_PANNING_AMPLITUDE)).1 = some h) :
    play E host fuel w filename file
      = { ret := if (play_loop E host fuel { w with force_apply := true } h).finished
            then some true else none,
          world := (play_loop E host fuel { w with force_apply := true } h).world,
          file := (open_file E host filename file
            (aud_get_int w.cfg SETTING_PANNING_AMPLITUDE)).2.2,
          trace := Event.aud_get_int SETTING_PANNING_AMPLITUDE
              (aud_get_int w.cfg SETTING_PANNING_AMPLITUDE)
            :: ((open_file E host filename file
                  (aud_get_int w.cfg SETTING_PANNING_AMPLITUDE)).2.1
                ++ Event.open_audio AudioFormat.FMT_S16_NE 44100 2
                  :: (play_loop E host fuel { w with force_apply := true } h).trace) } := by
  simp [play, hopen]

/-- The last element of a list that ends in a non-empty list. -/
theorem getLast?_cons_append_cons (a : Event) (o : List Event) (b : Event)
    (tr : List Event) (hne : tr ≠ []) :
    (a :: (o ++ b :: tr)).getLast? = tr.getLast? := by
  have e : a :: (o ++ b :: tr) = (a :: (o ++ [b])) ++ tr := by simp
  rw [e, List.getLast?_append_of_ne_nil _ hne]

/-- Dropping the zeros does not change a sum. -/
theorem filter_pos_sum (l : List Nat) :
    (l.filter (fun n => decide (0 < n))).sum = l.sum := by
  induction l with
  | nil => rfl
  | cons a l ih =>
    by_cases h : 0 < a
    · simp [h, ih]
    · have : a = 0 := by omega
      simp [this, ih]

/-- C4: when the resolver produces no handle, `play` returns false for every
bound on the number of iterations, calls neither `open_audio` nor
`write_audio`, and hands back the world it was given, so `force_apply` is
unchanged.  This covers the identifier that is not local whose `read_all`
gives an empty buffer that the engine rejects. -/
theorem play_no_handle {H V : Type} (E : XMPWrap H) (host : Host V) (fuel : Nat)
    (w : World) (filename : String) (file : V) :
    ((open_file E host filename file (aud_get_int w.cfg SETTING_PANNING_AMPLITUDE)).1 = none →
      (play E host fuel w filename file).ret = some false ∧
      (∀ e ∈ (play E host fuel w filename file).trace, e.is_sink = false) ∧
      (play E host fuel w filename file).world = w ∧
      (play E host fuel w filename file).world.force_apply = w.force_apply) ∧
    ((host.uri_to_filename filename).length = 0 → (host.read_all file).1 = [] →
      E.from_memory [] (aud_get_int w.cfg SETTING_PANNING_AMPLITUDE) = none →
      (play E host fuel w filename file).ret = some false ∧
      (∀ e ∈ (play E host fuel w filename file).trace, e.is_sink = false) ∧
      (play E host fuel w filename file).world.force_apply = w.force_apply) := by
  have main : (open_file E host filename file
        (aud_get_int w.cfg SETTING_PANNING_AMPLITUDE)).1 = none →
      (play E host fuel w filename file).ret = some false ∧
      (∀ e ∈ (play E host fuel w filename file).trace, e.is_sink = false) ∧
      (play E host fuel w filename file).world = w ∧
      (play E host fuel w filename file).world.force_apply = w.force_apply := by
    intro hopen
    rw [play_of_none E host fuel w filename file hopen]
    refine ⟨rfl, ?_, rfl, rfl⟩
    intro e he
    simp only [List.mem_cons] at he
    rcases he with rfl | he
    · rfl
    · exact open_file_no_sink E host filename file _ e he
  refine ⟨main, ?_⟩
  intro hlen hbuf hrej
  have hopen : (open_file E host filename file
      (aud_get_int w.cfg SETTING_PANNING_AMPLITUDE)).1 = none := by
    rw [open_file_of_empty E host filename file _ hlen, hbuf]
    exact hrej
  exact ⟨(main hopen).1, (main hopen).2.1, (main hopen).2.2.2⟩

/-- Witness of C4, scenario S4: a remote identifier whose `read_all` gives an
empty buffer; and a local text file with a virtual file the engine rejects. -/
theorem play_no_handle_witness :
    ((play demoEngine demoHost 10 demoWorld "/x.txt" [7, 1]).ret = some false ∧
      (∀ e ∈ (play demoEngine demoHost 10 demoWorld "/x.txt" [7, 1]).trace,
        e.is_sink = false) ∧
      (play demoEngine demoHost 10 demoWorld "/x.txt" [7, 1]).world = demoWorld ∧
      (play demoEngine demoHost 10 demoWorld "/x.txt" [7, 1]).world.force_apply
        = demoWorld.force_apply) ∧
    ((play demoEngine demoHost 10 demoWorld "http://host/big.xm" []).ret = some false ∧
      (∀ e ∈ (play demoEngine demoHost 10 demoWorld "http://host/big.xm" []).trace,
        e.is_sink = false) ∧
      (play demoEngine demoHost 10 demoWorld "http://host/big.xm" []).world.force_apply
        = demoWorld.force_apply) :=
  ⟨(play_no_handle demoEngine demoHost 10 demoWorld "/x.txt" [7, 1]).1 (by decide),
   (play_no_handle demoEngine demoHost 10 demoWorld "http://host/big.xm" []).2
      (by decide) (by decide) (by decide)⟩

/-- C5, refuted as stated: the sample module plays three frames with `n = 3`
and then a frame with `n = 0`; `play` returns true, the byte counts passed to
`write_audio` add up to 9, and the sum of `n * channels * 2` over the frames
with `n > 0` is 36. -/
theorem play_bytes_not_four_per_count :
    (play demoEngine demoHost 10 demoWorld "/music/demo.mod" []).ret = some true ∧
    (play demoEngine demoHost 10 demoWorld "/music/demo.mod" []).trace.getLast?
      = some (Event.play_frame 0) ∧
    frames (play demoEngine demoHost 10 demoWorld "/music/demo.mod" []).trace
      = [3, 3, 3, 0] ∧
    bytes_written (play demoEngine demoHost 10 demoWorld "/music/demo.mod" []).trace = 9 ∧
    spec_bytes (play demoEngine demoHost 10 demoWorld "/music/demo.mod" []).trace = 36 ∧
    bytes_written (play demoEngine demoHost 10 demoWorld "/music/demo.mod" []).trace
      ≠ spec_bytes (play demoEngine demoHost 10 demoWorld "/music/demo.mod" []).trace := by
  decide

/-- C5, amended: for every session that opens and ends because `play_frame`
returned a frame with `n = 0`, `play` returns true, and the total of the byte
counts passed to `write_audio` equals the sum of `frame.n` over the
synthesized frames with `n > 0` (the count `n` of a frame is passed to
`write_audio` as its length in bytes).  Allowing more iterations gives the
same run. -/
theorem play_bytes_written {H V : Type} (E : XMPWrap H) (host : Host V) (fuel : Nat)
    (w : World) (filename : String) (file : V) (h : H)
    (hopen : (open_file E host filename file
      (aud_get_int w.cfg SETTING_PANNING_AMPLITUDE)).1 = some h)
    (hend : (play E host fuel w filename file).trace.getLast?
      = some (Event.play_frame 0)) :
    (play E host fuel w filename file).ret = some true ∧
    bytes_written (play E host fuel w filename file).trace
      = ((frames (play E host fuel w filename file).trace).filter
          (fun n => decide (0 < n))).sum ∧
    (∀ k, play E host (fuel + k) w filename file = play E host fuel w filename file) := by
  have hne := play_loop_trace_ne_nil E host fuel { w with force_apply := true } h
  have hfin : (play_loop E host fuel { w with force_apply := true } h).finished = true := by
    apply play_loop_finished_of_last
    rw [play_of_some E host fuel w filename file h hopen] at hend
    simp only at hend
    rw [getLast?_cons_append_cons _ _ _ _ hne] at hend
    exact hend
  refine ⟨?_, ?_, ?_⟩
  · rw [play_of_some E host fuel w filename file h hopen]
    simp [hfin]
  · rw [filter_pos_sum, play_of_some E host fuel w filename file h hopen]
    simp only
    rcases open_file_trace_cases E host filename file
      (aud_get_int w.cfg SETTING_PANNING_AMPLITUDE) with ⟨p, hp⟩ | ⟨b, ok, hp⟩ | ⟨p, b, ok, hp⟩ <;>
      simp [hp, bytes_written, frames, play_loop_bytes]
  · intro k
    rw [play_of_some E host fuel w filename file h hopen,
      play_of_some E host (fuel + k) w filename file h hopen,
      play_loop_mono E host fuel k _ h hfin]

/-- Witness of amended C5: the sample module, three frames of three bytes. -/
theorem play_bytes_written_witness :
    (play demoEngine demoHost 10 demoWorld "/music/demo.mod" []).ret = some true ∧
    bytes_written (play demoEngine demoHost 10 demoWorld "/music/demo.mod" []).trace
      = ((frames (play demoEngine demoHost 10 demoWorld "/music/demo.mod" []).trace).filter
          (fun n => decide (0 < n))).sum ∧
    (∀ k, play demoEngine demoHost (10 + k) demoWorld "/music/demo.mod" []
      = play demoEngine demoHost 10 demoWorld "/music/demo.mod" []) :=
  play_bytes_written demoEngine demoHost 10 demoWorld "/music/demo.mod" []
    ⟨"Demo", 3, 0, 0, 0, 50⟩ (by decide) (by decide)

/-- One pass through the loop body writes at most once. -/
theorem play_iteration_writes {H V : Type} (E : XMPWrap H) (host : Host V) (w : World) (xmp : H) :
    (play_iteration E host w xmp).trace.countP Event.is_write ≤ 1 := by
  rw [play_iteration_trace, poll_seek_trace, apply_settings_trace]
  split <;> split <;> split <;> simp [List.countP_cons, Event.is_write]

/-- One pass through the loop body advances the time. -/
theorem play_iteration_clock {H V : Type} (E : XMPWrap H) (host : Host V) (w : World) (xmp : H) :
    w.clock < (play_iteration E host w xmp).world.clock := by
  have h := apply_settings_clock E host (suspend host w) (poll_seek E host w xmp).xmp
  rw [suspend_clock] at h
  rw [play_iteration_world]
  split
  · omega
  · rw [suspend_clock]
    omega

/-- The resolver does not call the stop check. -/
theorem open_file_after_stop {H V : Type} (E : XMPWrap H) (host : Host V)
    (uri : String) (file : V) (pa : Int) :
    after_stop (open_file E host uri file pa).2.1 = none := by
  rcases open_file_trace_cases E host uri file pa with
    ⟨p, hp⟩ | ⟨b, ok, hp⟩ | ⟨p, b, ok, hp⟩ <;> simp [hp, after_stop]

/-- C8: for a session that opened, a `check_stop` that answers true at the
head of an iteration ends the loop there: the loop makes no further call and
`play` returns true.  In the whole run of `play` nothing is called after a
`check_stop` that answered true.  When the stop signal is raised after the
head check of an iteration, that iteration synthesizes its one frame, writes
it at most once, and the next head check ends the loop. -/
theorem play_stop_exits {H V : Type} (E : XMPWrap H) (host : Host V) (fuel : Nat)
    (w : World) (filename : String) (file : V) (h : H)
    (hopen : (open_file E host filename file
      (aud_get_int w.cfg SETTING_PANNING_AMPLITUDE)).1 = some h) :
    (∀ (n : Nat) (w1 : World) (x : H), host.stop w1.clock = true →
      play_loop E host n w1 x
        = { finished := true, world := suspend host w1, xmp := x,
            trace := [Event.check_stop true] }) ∧
    (host.stop w.clock = true →
      (play E host fuel w filename file).ret = some true ∧
      (play E host fuel w filename file).trace
        = Event.aud_get_int SETTING_PANNING_AMPLITUDE
            (aud_get_int w.cfg SETTING_PANNING_AMPLITUDE)
          :: ((open_file E host filename file
                (aud_get_int w.cfg SETTING_PANNING_AMPLITUDE)).2.1
              ++ [Event.open_audio AudioFormat.FMT_S16_NE 44100 2,
                  Event.check_stop true])) ∧
    (∀ post, after_stop (play E host fuel w filename file).trace = some post →
      post = [] ∧ (play E host fuel w filename file).ret = some true) ∧
    (∀ (n : Nat) (w1 : World) (x : H), host.stop w1.clock = false →
      (∀ t, w1.clock < t → host.stop t = true) →
      (play_loop E host (n + 1) w1 x).finished = true ∧
      (frames (play_loop E host (n + 1) w1 x).trace).length = 1 ∧
      (play_loop E host (n + 1) w1 x).trace.countP Event.is_write ≤ 1) := by
  refine ⟨fun n w1 x hs => play_loop_of_stop E host n w1 x hs, ?_, ?_, ?_⟩
  · intro hs
    rw [play_of_some E host fuel w filename file h hopen]
    have hs1 : host.stop ({ w with force_apply := true } : World).clock = true := hs
    rw [play_loop_of_stop E host fuel _ h hs1]
    simp
  · intro post hp
    rw [play_of_some E host fuel w filename file h hopen] at hp ⊢
    simp only [after_stop] at hp
    rw [after_stop_append _ _ (open_file_after_stop E host filename file _)] at hp
    simp only [after_stop] at hp
    have := play_loop_after_stop E host fuel _ h post hp
    exact ⟨this.1, by simp [this.2]⟩
  · intro n w1 x hs hafter
    rw [play_loop_succ E host n w1 x hs]
    have hclk : w1.clock < (play_iteration E host (suspend host w1) x).world.clock := by
      have := play_iteration_clock E host (suspend host w1) x
      rw [suspend_clock] at this
      omega
    have hw := play_iteration_writes E host (suspend host w1) x
    cases hb : (play_iteration E host (suspend host w1) x).brk with
    | true =>
      simp only [if_true]
      refine ⟨by simp, ?_, ?_⟩
      · simp [frames, play_iteration_frames]
      · simpa [List.countP_cons, Event.is_write] using hw
    | false =>
      simp only [Bool.false_eq_true, if_false]
      rw [play_loop_of_stop E host n _ _ (hafter _ hclk)]
      refine ⟨by simp, ?_, ?_⟩
      · simp [frames, frames_append, play_iteration_frames]
      · simpa [List.countP_cons, List.countP_append, Event.is_write] using hw

/-- Witness of C8, scenario S6: on the busy host the stop signal is up from
time 12 on.  A session opened at time 12 ends at its first check; the run of
the sample module from time 0 has nothing after the `check_stop` that answered
true and returns true; and the iteration whose head check is at time 11 gives
one frame and at most one write before the loop ends. -/
theorem play_stop_exits_witness :
    ((play demoEngine busyHost 10 { demoWorld with clock := 12 } "http://host/a.xm"
        [77, 1]).ret = some true ∧
      (play demoEngine busyHost 10 { demoWorld with clock := 12 } "http://host/a.xm"
        [77, 1]).trace
        = Event.aud_get_int SETTING_PANNING_AMPLITUDE
            (aud_get_int ({ demoWorld with clock := 12 } : World).cfg
              SETTING_PANNING_AMPLITUDE)
          :: ((open_file demoEngine busyHost "http://host/a.xm" [77, 1]
                (aud_get_int ({ demoWorld with clock := 12 } : World).cfg
                  SETTING_PANNING_AMPLITUDE)).2.1
              ++ [Event.open_audio AudioFormat.FMT_S16_NE 44100 2,
                  Event.check_stop true])) ∧
    (([] : List Event) = [] ∧
      (play demoEngine busyHost 10 demoWorld "http://host/a.xm" [77, 1]).ret = some true) ∧
    ((play_loop demoEngine busyHost (0 + 1) { demoWorld with clock := 11 }
        ⟨"", 3, 0, 0, 0, 50⟩).finished = true ∧
      (frames (play_loop demoEngine busyHost (0 + 1) { demoWorld with clock := 11 }
        ⟨"", 3, 0, 0, 0, 50⟩).trace).length = 1 ∧
      (play_loop demoEngine busyHost (0 + 1) { demoWorld with clock := 11 }
        ⟨"", 3, 0, 0, 0, 50⟩).trace.countP Event.is_write ≤ 1) :=
  ⟨(play_stop_exits demoEngine busyHost 10 { demoWorld with clock := 12 } "http://host/a.xm"
      [77, 1] ⟨"", 3, 0, 0, 0, 50⟩ (by decide)).2.1 (by decide),
   (play_stop_exits demoEngine busyHost 10 demoWorld "http://host/a.xm"
      [77, 1] ⟨"", 3, 0, 0, 0, 50⟩ (by decide)).2.2.1 [] (by decide),
   (play_stop_exits demoEngine busyHost 10 demoWorld "http://host/a.xm"
      [77, 1] ⟨"", 3, 0, 0, 0, 50⟩ (by decide)).2.2.2 0 { demoWorld with clock := 11 }
      ⟨"", 3, 0, 0, 0, 50⟩ (by decide)
      (fun t ht => by
        have h6 : 12 ≤ t := ht
        simp [busyHost, h6])⟩

/-! ## Seeks -/

/-- The resolver neither polls, seeks nor synthesizes. -/
theorem open_file_polls {H V : Type} (E : XMPWrap H) (host : Host V)
    (uri : String) (file : V) (pa : Int) :
    polls (open_file E host uri file pa).2.1 = [] ∧
    seeks (open_file E host uri file pa).2.1 = [] ∧
    frames (open_file E host uri file pa).2.1 = [] := by
  rcases open_file_trace_cases E host uri file pa with
    ⟨p, hp⟩ | ⟨b, ok, hp⟩ | ⟨p, b, ok, hp⟩ <;> simp [hp, polls, seeks, frames]

/-- Over a run of the loop, `seek` is called with exactly the answers of
`check_seek` that are `>= 0`, and there is one poll per synthesized frame. -/
theorem play_loop_seeks {H V : Type} (E : XMPWrap H) (host : Host V)
    (fuel : Nat) (w : World) (xmp : H) :
    seeks (play_loop E host fuel w xmp).trace
      = (polls (play_loop E host fuel w xmp).trace).filter (fun v => decide (0 ≤ v)) ∧
    (polls (play_loop E host fuel w xmp).trace).length
      = (frames (play_loop E host fuel w xmp).trace).length := by
  induction fuel generalizing w xmp with
  | zero =>
    cases hs : host.stop w.clock <;> simp [play_loop, hs, seeks, polls, frames]
  | succ n ih =>
    cases hs : host.stop w.clock with
    | true => rw [play_loop_of_stop E host _ w xmp hs]; simp [seeks, polls, frames]
    | false =>
      rw [play_loop_succ E host _ w xmp hs]
      split
      · simp only [seeks, polls, frames, play_iteration_seeks, play_iteration_polls,
          play_iteration_frames]
        by_cases hv : 0 ≤ host.seek (suspend host w).clock <;> simp [hv]
      · simp only [seeks, polls, frames, seeks_append, polls_append, frames_append,
          play_iteration_seeks, play_iteration_polls, play_iteration_frames]
        rw [(ih _ _).1]
        refine ⟨?_, by simp [(ih _ _).2]⟩
        by_cases hv : 0 ≤ host.seek (suspend host w).clock <;> simp [hv]

/-- C7: in a pass through the loop body `check_seek` is polled exactly once.
When the answer `v` satisfies `v >= 0` (zero included) `seek` is called once
with `v`, right after the poll and before `play_frame`; when `v < 0` `seek`
is not called.  The frame of the iteration is synthesized on the handle as
repositioned by that seek.  Over a whole run of `play`, the positions passed
to `seek` are exactly the answers `>= 0` of `check_seek`, in order, and there
is one poll per synthesized frame. -/
theorem play_seek_follows_poll {H V : Type} (E : XMPWrap H) (host : Host V) (fuel : Nat)
    (w : World) (xmp : H) (filename : String) (file : V) :
    polls (play_iteration E host w xmp).trace = [host.seek w.clock] ∧
    (0 ≤ host.seek w.clock →
      poll_seek E host w xmp
        = { world := suspend host w, xmp := E.seek xmp (host.seek w.clock),
            trace := [Event.check_seek (host.seek w.clock),
                      Event.seek (host.seek w.clock)] }) ∧
    (host.seek w.clock < 0 →
      poll_seek E host w xmp
        = { world := suspend host w, xmp := xmp,
            trace := [Event.check_seek (host.seek w.clock)] }) ∧
    (play_iteration E host w xmp).trace.filter (fun e => e.is_seek || e.is_frame)
      = (poll_seek E host w xmp).trace
        ++ [Event.play_frame
            (E.play_frame
              (apply_settings E host (suspend host w)
                (if 0 ≤ host.seek w.clock then E.seek xmp (host.seek w.clock)
                 else xmp)).xmp).1.n] ∧
    seeks (play E host fuel w filename file).trace
      = (polls (play E host fuel w filename file).trace).filter (fun v => decide (0 ≤ v)) ∧
    (polls (play E host fuel w filename file).trace).length
      = (frames (play E host fuel w filename file).trace).length := by
  refine ⟨play_iteration_polls E host w xmp, ?_, ?_, ?_, ?_⟩
  · intro hv
    simp [poll_seek, hv]
  · intro hv
    have : ¬ (0 ≤ host.seek w.clock) := by omega
    simp [poll_seek, this]
  · rw [play_iteration_trace, poll_seek_xmp, poll_seek_trace, apply_settings_trace]
    split <;> split <;> split <;> simp [Event.is_seek, Event.is_frame]
  · cases hopen : (open_file E host filename file
        (aud_get_int w.cfg SETTING_PANNING_AMPLITUDE)).1 with
    | none =>
      rw [play_of_none E host fuel w filename file hopen]
      simp [seeks, polls, frames, open_file_polls]
    | some h =>
      rw [play_of_some E host fuel w filename file h hopen]
      simp only [seeks, polls, frames, seeks_append, polls_append, frames_append,
        open_file_polls, List.nil_append]
      exact play_loop_seeks E host fuel _ h

/-- Witness of C7: the busy host answers 500 to the poll at time 1 and the
sample host answers -1. -/
theorem play_seek_follows_poll_witness :
    poll_seek demoEngine busyHost { demoWorld with clock := 1 } ⟨"", 3, 0, 0, 0, 50⟩
      = { world := suspend busyHost { demoWorld with clock := 1 },
          xmp := demoEngine.seek ⟨"", 3, 0, 0, 0, 50⟩
            (busyHost.seek ({ demoWorld with clock := 1 } : World).clock),
          trace := [Event.check_seek
                      (busyHost.seek ({ demoWorld with clock := 1 } : World).clock),
                    Event.seek
                      (busyHost.seek ({ demoWorld with clock := 1 } : World).clock)] } ∧
    poll_seek demoEngine demoHost demoWorld ⟨"", 3, 0, 0, 0, 50⟩
      = { world := suspend demoHost demoWorld, xmp := ⟨"", 3, 0, 0, 0, 50⟩,
          trace := [Event.check_seek (demoHost.seek demoWorld.clock)] } :=
  ⟨(play_seek_follows_poll demoEngine busyHost 10 { demoWorld with clock := 1 }
      ⟨"", 3, 0, 0, 0, 50⟩ "http://host/a.xm" [77, 1]).2.1 (by decide),
   (play_seek_follows_poll demoEngine demoHost 10 demoWorld
      ⟨"", 3, 0, 0, 0, 50⟩ "http://host/a.xm" [77, 1]).2.2.1 (by decide)⟩

/-! ## Panning amplitude -/

/-- Agreement up to the panning amplitude is reflexive. -/
theorem same_live_refl (a : World) : same_live a a := ⟨rfl, rfl, rfl, rfl⟩

/-- Agreement up to the panning amplitude is symmetric. -/
theorem same_live_symm {a b : World} (h : same_live a b) : same_live b a :=
  ⟨h.1.symm, h.2.1.symm, h.2.2.1.symm, h.2.2.2.symm⟩

/-- Agreement up to the panning amplitude is transitive. -/
theorem same_live_trans {a b c : World} (h : same_live a b) (k : same_live b c) :
    same_live a c :=
  ⟨h.1.trans k.1, h.2.1.trans k.2.1, h.2.2.1.trans k.2.2.1, h.2.2.2.trans k.2.2.2⟩

/-- An edit of the panning amplitude changes nothing but the stored panning
amplitude. -/
theorem widget_edit_panning (w : World) (v : Int) :
    same_live (widget_edit w ⟨SETTING_PANNING_AMPLITUDE, v⟩) w :=
  ⟨rfl, rfl, rfl, rfl⟩

/-- A store of the panning amplitude changes nothing but the stored panning
amplitude. -/
theorem ui_step_panning_store (w : World) (v : Int) :
    same_live (ui_step w (UIStep.store SETTING_PANNING_AMPLITUDE v)) w :=
  ⟨rfl, rfl, rfl, rfl⟩

/-- The same step keeps two worlds in agreement. -/
theorem ui_step_same_live {a b : World} (h : same_live a b) (s : UIStep) :
    same_live (ui_step a s) (ui_step b s) := by
  obtain ⟨h1, h2, h3, h4⟩ := h
  cases s with
  | values_changed => exact ⟨rfl, h2, h3, h4⟩
  | store k v =>
    cases k <;> exact ⟨h1, h2, by simp [ui_step, aud_set_int, h3],
      by simp [ui_step, aud_set_int, h4]⟩

/-- Dropping the stores of the panning amplitude from a list of steps keeps
the worlds in agreement. -/
theorem foldl_live_edits (l : List UIStep) {a b : World} (h : same_live a b) :
    same_live (l.foldl ui_step a) ((live_edits l).foldl ui_step b) := by
  induction l generalizing a b with
  | nil => exact h
  | cons e l ih =>
    cases e with
    | values_changed =>
      have : live_edits (UIStep.values_changed :: l)
          = UIStep.values_changed :: live_edits l := by
        simp [live_edits, UIStep.is_panning_store]
      rw [this, List.foldl_cons, List.foldl_cons]
      exact ih (ui_step_same_live h _)
    | store k v =>
      cases k with
      | SETTING_PANNING_AMPLITUDE =>
        have : live_edits (UIStep.store SETTING_PANNING_AMPLITUDE v :: l)
            = live_edits l := by
          simp [live_edits, UIStep.is_panning_store]
        rw [this, List.foldl_cons]
        exact ih (same_live_trans (ui_step_panning_store a v) h)
      | SETTING_STEREO_SEPARATION =>
        have : live_edits (UIStep.store SETTING_STEREO_SEPARATION v :: l)
            = UIStep.store SETTING_STEREO_SEPARATION v :: live_edits l := by
          simp [live_edits, UIStep.is_panning_store]
        rw [this, List.foldl_cons, List.foldl_cons]
        exact ih (ui_step_same_live h _)
      | SETTING_INTERPOLATOR =>
        have : live_edits (UIStep.store SETTING_INTERPOLATOR v :: l)
            = UIStep.store SETTING_INTERPOLATOR v :: live_edits l := by
          simp [live_edits, UIStep.is_panning_store]
        rw [this, List.foldl_cons, List.foldl_cons]
        exact ih (ui_step_same_live h _)

/-- Two hosts whose steps differ in stores of the panning amplitude only keep
two worlds in agreement across a point at which the preferences thread runs. -/
theorem suspend_same_live {V : Type} (h1 h2 : Host V)
    (hui : ∀ t, live_edits (h1.ui t) = live_edits (h2.ui t))
    {a b : World} (h : same_live a b) :
    same_live (suspend h1 a) (suspend h2 b) := by
  unfold suspend
  have hab : same_live { a with clock := a.clock + 1 } { b with clock := b.clock + 1 } :=
    ⟨h.1, by simp [h.2.1], h.2.2.1, h.2.2.2⟩
  have e1 := foldl_live_edits (h1.ui a.clock) hab
  have e2 := foldl_live_edits (h2.ui b.clock)
    (same_live_refl { b with clock := b.clock + 1 })
  rw [h.2.1, hui b.clock] at e1
  rw [h.2.1]
  exact same_live_trans e1 (same_live_symm e2)

/-- The handle after one pass through the loop body. -/
theorem play_iteration_xmp {H V : Type} (E : XMPWrap H) (host : Host V) (w : World) (xmp : H) :
    (play_iteration E host w xmp).xmp
      = (E.play_frame
          (apply_settings E host (suspend host w) (poll_seek E host w xmp).xmp).xmp).2 := by
  unfold play_iteration
  simp only [poll_seek_world]
  split <;> simp

/-- Lines 135-140 under two hosts that differ in stores of the panning
amplitude only. -/
theorem apply_settings_same_live {H V : Type} (E : XMPWrap H) (h1 h2 : Host V)
    (hui : ∀ t, live_edits (h1.ui t) = live_edits (h2.ui t))
    {a b : World} (h : same_live a b) (x : H) :
    (apply_settings E h1 a x).trace = (apply_settings E h2 b x).trace ∧
    (apply_settings E h1 a x).xmp = (apply_settings E h2 b x).xmp ∧
    same_live (apply_settings E h1 a x).world (apply_settings E h2 b x).world := by
  have s1 := suspend_same_live h1 h2 hui h
  have s2 := suspend_same_live h1 h2 hui s1
  have s3 := suspend_same_live h1 h2 hui s2
  refine ⟨?_, ?_, ?_⟩
  · rw [apply_settings_trace, apply_settings_trace, h.1, s1.2.2.2, s2.2.2.1]
  · rw [apply_settings_xmp, apply_settings_xmp, h.1, s1.2.2.2, s2.2.2.1]
  · rw [apply_settings_world, apply_settings_world, h.1]
    split
    · exact ⟨rfl, s3.2.1, s3.2.2.1, s3.2.2.2⟩
    · exact h

/-- One pass through the loop body under two hosts that differ in stores of
the panning amplitude only. -/
theorem play_iteration_same_live {H V : Type} (E : XMPWrap H) (h1 h2 : Host V)
    (hseek : h1.seek = h2.seek)
    (hui : ∀ t, live_edits (h1.ui t) = live_edits (h2.ui t))
    {a b : World} (h : same_live a b) (xmp : H) :
    (play_iteration E h1 a xmp).trace = (play_iteration E h2 b xmp).trace ∧
    (play_iteration E h1 a xmp).brk = (play_iteration E h2 b xmp).brk ∧
    (play_iteration E h1 a xmp).xmp = (play_iteration E h2 b xmp).xmp ∧
    same_live (play_iteration E h1 a xmp).world (play_iteration E h2 b xmp).world := by
  have hs := suspend_same_live h1 h2 hui h
  have hp : (poll_seek E h1 a xmp).xmp = (poll_seek E h2 b xmp).xmp := by
    rw [poll_seek_xmp, poll_seek_xmp, hseek, h.2.1]
  obtain ⟨at1, at2, at3⟩ := apply_settings_same_live E h1 h2 hui hs (poll_seek E h2 b xmp).xmp
  have hb : (play_iteration E h1 a xmp).brk = (play_iteration E h2 b xmp).brk := by
    rw [play_iteration_brk, play_iteration_brk, hp, at2]
  refine ⟨?_, hb, ?_, ?_⟩
  · rw [play_iteration_trace, play_iteration_trace, hp, at1, at2, poll_seek_trace,
      poll_seek_trace, hseek, h.2.1]
  · rw [play_iteration_xmp, play_iteration_xmp, hp, at2]
  · rw [play_iteration_world, play_iteration_world, hb, hp]
    split
    · exact at3
    · exact suspend_same_live h1 h2 hui at3

/-- The loop under two hosts that differ in edits of the panning amplitude
only: same calls, same outcome. -/
theorem play_loop_same_live {H V : Type} (E : XMPWrap H) (h1 h2 : Host V)
    (hstop : h1.stop = h2.stop) (hseek : h1.seek = h2.seek)
    (hui : ∀ t, live_edits (h1.ui t) = live_edits (h2.ui t))
    (fuel : Nat) {a b : World} (h : same_live a b) (xmp : H) :
    (play_loop E h1 fuel a xmp).trace = (play_loop E h2 fuel b xmp).trace ∧
    (play_loop E h1 fuel a xmp).finished = (play_loop E h2 fuel b xmp).finished ∧
    (play_loop E h1 fuel a xmp).xmp = (play_loop E h2 fuel b xmp).xmp ∧
    same_live (play_loop E h1 fuel a xmp).world (play_loop E h2 fuel b xmp).world := by
  induction fuel generalizing a b xmp with
  | zero =>
    have hs := suspend_same_live h1 h2 hui h
    cases hst : h2.stop b.clock with
    | true =>
      have hst1 : h1.stop a.clock = true := by rw [hstop, h.2.1]; exact hst
      rw [play_loop_of_stop E h1 _ a xmp hst1, play_loop_of_stop E h2 _ b xmp hst]
      exact ⟨rfl, rfl, rfl, hs⟩
    | false =>
      have hst1 : h1.stop a.clock = false := by rw [hstop, h.2.1]; exact hst
      simp only [play_loop, hst, hst1]
      exact ⟨rfl, rfl, rfl, hs⟩
  | succ n ih =>
    have hs := suspend_same_live h1 h2 hui h
    cases hst : h2.stop b.clock with
    | true =>
      have hst1 : h1.stop a.clock = true := by rw [hstop, h.2.1]; exact hst
      rw [play_loop_of_stop E h1 _ a xmp hst1, play_loop_of_stop E h2 _ b xmp hst]
      exact ⟨rfl, rfl, rfl, hs⟩
    | false =>
      have hst1 : h1.stop a.clock = false := by rw [hstop, h.2.1]; exact hst
      rw [play_loop_succ E h1 _ a xmp hst1, play_loop_succ E h2 _ b xmp hst]
      obtain ⟨it1, it2, it3, it4⟩ := play_iteration_same_live E h1 h2 hseek hui hs xmp
      rw [it2]
      cases hb : (play_iteration E h2 (suspend h2 b) xmp).brk with
      | true =>
        simp only [if_true]
        exact ⟨by rw [it1], trivial, it3, it4⟩
      | false =>
        simp only [Bool.false_eq_true, if_false]
        rw [it3]
        obtain ⟨r1, r2, r3, r4⟩ := ih it4 (play_iteration E h2 (suspend h2 b) xmp).xmp
        exact ⟨by rw [it1, r1], r2, r3, r4⟩

/-- The loop body does not read the panning amplitude. -/
theorem play_iteration_no_panning_read {H V : Type} (E : XMPWrap H) (host : Host V)
    (w : World) (xmp : H) :
    (play_iteration E host w xmp).trace.filter Event.is_panning_read = [] := by
  rw [play_iteration_trace, poll_seek_trace, apply_settings_trace]
  split <;> split <;> split <;> simp [Event.is_panning_read]

/-- The loop does not read the panning amplitude. -/
theorem play_loop_no_panning_read {H V : Type} (E : XMPWrap H) (host : Host V)
    (fuel : Nat) (w : World) (xmp : H) :
    (play_loop E host fuel w xmp).trace.filter Event.is_panning_read = [] := by
  induction fuel generalizing w xmp with
  | zero =>
    cases hs : host.stop w.clock <;> simp [play_loop, hs, Event.is_panning_read]
  | succ n ih =>
    cases hs : host.stop w.clock with
    | true => rw [play_loop_of_stop E host _ w xmp hs]; simp [Event.is_panning_read]
    | false =>
      rw [play_loop_succ E host _ w xmp hs]
      split
      · simp only [List.filter_cons, Event.is_panning_read,
          play_iteration_no_panning_read]
        simp
      · simp only [List.filter_cons, List.filter_append, Event.is_panning_read,
          play_iteration_no_panning_read, ih]
        simp

/-- The resolver does not read the configuration. -/
theorem open_file_no_panning_read {H V : Type} (E : XMPWrap H) (host : Host V)
    (uri : String) (file : V) (pa : Int) :
    (open_file E host uri file pa).2.1.filter Event.is_panning_read = [] := by
  rcases open_file_trace_cases E host uri file pa with
    ⟨p, hp⟩ | ⟨b, ok, hp⟩ | ⟨p, b, ok, hp⟩ <;> simp [hp, Event.is_panning_read]

/-- The resolver does not depend on the edits of the host. -/
theorem open_file_ui {H V : Type} (E : XMPWrap H) (host : Host V)
    (ui2 : Nat → List UIStep) (uri : String) (file : V) (pa : Int) :
    open_file E { host with ui := ui2 } uri file pa = open_file E host uri file pa := rfl

/-- C9: the panning amplitude is a construction-time parameter.  `play` reads
it from the configuration exactly once, as its first call, and passes that
value to the resolver.  Two runs of `play` from the same world, under hosts
that differ only in the stores of the panning amplitude made while the loop
runs (at any point, the points inside the reapply block included), make the
same calls in the same order (so the same `seek`, `set_interpolator`,
`set_stereo_separation` and `play_frame` calls and the same `write_audio`
calls), return the same value and leave the same `force_apply`.  An edit of
the panning amplitude leaves `force_apply` as it was: it is a store with no
callback. -/
theorem play_panning_at_open_only {H V : Type} (E : XMPWrap H) (host : Host V)
    (ui2 : Nat → List UIStep) (fuel : Nat) (w : World) (filename : String) (file : V)
    (hui : ∀ t, live_edits (host.ui t) = live_edits (ui2 t)) :
    (play E host fuel w filename file).trace.filter Event.is_panning_read
      = [Event.aud_get_int SETTING_PANNING_AMPLITUDE
          (aud_get_int w.cfg SETTING_PANNING_AMPLITUDE)] ∧
    (∃ rest, (play E host fuel w filename file).trace
      = Event.aud_get_int SETTING_PANNING_AMPLITUDE
          (aud_get_int w.cfg SETTING_PANNING_AMPLITUDE)
        :: ((open_file E host filename file
              (aud_get_int w.cfg SETTING_PANNING_AMPLITUDE)).2.1 ++ rest)) ∧
    (play E { host with ui := ui2 } fuel w filename file).trace
      = (play E host fuel w filename file).trace ∧
    (play E { host with ui := ui2 } fuel w filename file).ret
      = (play E host fuel w filename file).ret ∧
    (play E { host with ui := ui2 } fuel w filename file).world.force_apply
      = (play E host fuel w filename file).world.force_apply ∧
    (∀ (w1 : World) (v : Int),
      (widget_edit w1 ⟨SETTING_PANNING_AMPLITUDE, v⟩).force_apply = w1.force_apply) ∧
    (∀ v : Int, widget_steps ⟨SETTING_PANNING_AMPLITUDE, v⟩
      = [UIStep.store SETTING_PANNING_AMPLITUDE v]) := by
  cases hopen : (open_file E host filename file
      (aud_get_int w.cfg SETTING_PANNING_AMPLITUDE)).1 with
  | none =>
    have hopen2 : (open_file E { host with ui := ui2 } filename file
        (aud_get_int w.cfg SETTING_PANNING_AMPLITUDE)).1 = none := hopen
    rw [play_of_none E host fuel w filename file hopen,
      play_of_none E { host with ui := ui2 } fuel w filename file hopen2, open_file_ui]
    refine ⟨?_, ⟨[], by simp⟩, rfl, rfl, rfl, fun w1 v => rfl, fun v => rfl⟩
    simp [List.filter_cons, Event.is_panning_read, open_file_no_panning_read]
  | some h =>
    have hopen2 : (open_file E { host with ui := ui2 } filename file
        (aud_get_int w.cfg SETTING_PANNING_AMPLITUDE)).1 = some h := hopen
    rw [play_of_some E host fuel w filename file h hopen,
      play_of_some E { host with ui := ui2 } fuel w filename file h hopen2, open_file_ui]
    obtain ⟨r1, r2, _, r4⟩ := play_loop_same_live E { host with ui := ui2 } host rfl rfl
      (fun t => (hui t).symm) fuel (same_live_refl { w with force_apply := true }) h
    refine ⟨?_, ⟨_, rfl⟩, ?_, ?_, r4.1, fun w1 v => rfl, fun v => rfl⟩
    · simp [List.filter_cons, List.filter_append, Event.is_panning_read,
        open_file_no_panning_read, play_loop_no_panning_read]
    · simp only [r1, open_file_ui]
    · simp only [r2]

/-- Witness of C9: the busy host, and the same host with its one edit of the
panning amplitude replaced by three others at other moments, one of them
between the two reads of the first reapply block. -/
theorem play_panning_at_open_only_witness :
    (play demoEngine busyHost 10 demoWorld "http://host/a.xm" [77, 1]).trace.filter
        Event.is_panning_read
      = [Event.aud_get_int SETTING_PANNING_AMPLITUDE
          (aud_get_int demoWorld.cfg SETTING_PANNING_AMPLITUDE)] ∧
    (∃ rest, (play demoEngine busyHost 10 demoWorld "http://host/a.xm" [77, 1]).trace
      = Event.aud_get_int SETTING_PANNING_AMPLITUDE
          (aud_get_int demoWorld.cfg SETTING_PANNING_AMPLITUDE)
        :: ((open_file demoEngine busyHost "http://host/a.xm" [77, 1]
              (aud_get_int demoWorld.cfg SETTING_PANNING_AMPLITUDE)).2.1 ++ rest)) ∧
    (play demoEngine { busyHost with ui := otherPanningEdits } 10 demoWorld
        "http://host/a.xm" [77, 1]).trace
      = (play demoEngine busyHost 10 demoWorld "http://host/a.xm" [77, 1]).trace ∧
    (play demoEngine { busyHost with ui := otherPanningEdits } 10 demoWorld
        "http://host/a.xm" [77, 1]).ret
      = (play demoEngine busyHost 10 demoWorld "http://host/a.xm" [77, 1]).ret ∧
    (play demoEngine { busyHost with ui := otherPanningEdits } 10 demoWorld
        "http://host/a.xm" [77, 1]).world.force_apply
      = (play demoEngine busyHost 10 demoWorld "http://host/a.xm" [77, 1]).world.force_apply ∧
    (∀ (w1 : World) (v : Int),
      (widget_edit w1 ⟨SETTING_PANNING_AMPLITUDE, v⟩).force_apply = w1.force_apply) ∧
    (∀ v : Int, widget_steps ⟨SETTING_PANNING_AMPLITUDE, v⟩
      = [UIStep.store SETTING_PANNING_AMPLITUDE v]) :=
  play_panning_at_open_only demoEngine busyHost otherPanningEdits 10 demoWorld
    "http://host/a.xm" [77, 1]
    (fun t => by
      by_cases h6 : t = 6
      · subst h6; decide
      · by_cases h7 : t = 7
        · subst h7; decide
        · by_cases h2 : t = 2
          · subst h2; decide
          · by_cases h9 : t = 9
            · subst h9; decide
            · simp [busyHost, otherPanningEdits, h6, h7, h2, h9])

/-! ## The reapply flag -/

end XMP
